import Mathlib

/-!
Verification of the activity_klog event transport against its specification.

The development shallowly embeds the two core source files:
* `src/secure_log/log.c` — the circular log buffer (placement, eviction,
  wraparound), the two producer entry points `store_netlog_record` and
  `store_execlog_record`, the record rendering helpers, and the reader-session
  operations `secure_log_read` and `secure_log_llseek`;
* the probes file — the probe lifecycle manager `plant_probe`,
  `unplant_probe_locked` and friends.

Machine integers are embedded as `Nat` (the source never relies on overflow of
the quantities modelled here: sequence numbers are 64-bit and documented never
to overflow; sizes and indices stay far below 2^32).  The byte arena `log_buf`
is embedded at record granularity: a write of a record of `len` bytes at
offset `idx` stores the record value at `idx` and clobbers the bytes strictly
inside `[idx, idx+len)`; reading a byte that no record/marker starts at yields
an unknown cell, and operations that would read such a cell return `none`.

Constants that live in headers absent from the source snapshot
(`LOG_BUF_LEN`, `USER_BUFFER_SIZE`, the struct sizes and `LOG_ALIGN`) are kept
as parameters of a `Layout` structure; the helpers absent from the snapshot
(`print_netlog`, the `CURRENT_DETAILS` formatting) are kept as parameters of a
`RenderEnv` structure, so every theorem quantifies over them.
-/

namespace ActivityKlog

/-- INT_MAX of the C host (32-bit int). -/
def INT_MAX : Nat := 2 ^ 31 - 1

/-- Layout constants defined in headers that are not part of the snapshot:
`LOG_BUF_LEN`, `USER_BUFFER_SIZE`, `sizeof(struct sec_log)`,
`sizeof(struct netlog_log)`, `sizeof(struct execlog_log)` and `LOG_ALIGN`
(the alignment of `struct netlog_log`). -/
structure Layout where
  bufLen : Nat
  usrBuf : Nat
  szSec : Nat
  szNet : Nat
  szExec : Nat
  logAlign : Nat
deriving DecidableEq

/-- Two's-complement negation of a `size_t` value, as a natural number:
`(size_t)(-size)` on the 64-bit host. -/
def negSizeT (size : Nat) : Nat := (2 ^ 64 - size % 2 ^ 64) % 2 ^ 64

/-- The padding `(-size) & (LOG_ALIGN - 1)` added by `find_new_record_place`. -/
def alignPad (A size : Nat) : Nat := negSizeT size &&& (A - 1)

/-- `size` rounded up as in `find_new_record_place`:
`size += (-size) & (LOG_ALIGN - 1)`. -/
def alignSize (A size : Nat) : Nat := size + alignPad A size

/-- Fixed (non-string) fields of a `struct netlog_log` record past the common
header.  The 16-byte address slots are byte lists; `none` stands for a byte the
source never wrote (e.g. the tail of the slot after a 4-byte IPv4 copy). -/
structure NetFields where
  path_len : Nat
  protocol : Nat
  action : Nat
  family : Nat
  src_port : Int
  dst_port : Int
  src : List (Option Nat)
  dst : List (Option Nat)
  path : List Nat
deriving DecidableEq

/-- Fields of a `struct execlog_log` record past the common header. -/
structure ExecFields where
  path_len : Nat
  argv_len : Nat
  path : List Nat
  argv : List Nat
deriving DecidableEq

/-- Record payload, tagged by `enum secure_log_type`. -/
inductive RecBody where
  | net (f : NetFields)
  | exec (f : ExecFields)
deriving DecidableEq

/-- A record as stored in the buffer: the `struct sec_log` header
(`len`, the `current_details` process snapshot kept abstract as a `Nat`,
the type tag implied by the body) plus the variable part. -/
structure StoredRec where
  len : Nat
  process : Nat
  body : RecBody
deriving DecidableEq

/-- One byte-position of the arena: either the start of a stored record, the
zero `size_t` wraparound marker, or a byte with no known structure. -/
inductive Cell where
  | junk
  | wrapMark
  | stored (r : StoredRec)
deriving DecidableEq

/-- The byte arena `log_buf`, at record granularity. -/
def Arena : Type := Nat → Cell

/-- Writing a record of `r.len` bytes at `idx`: the record starts at `idx`,
all bytes strictly inside its extent are clobbered. -/
def writeRec (a : Arena) (idx : Nat) (r : StoredRec) : Arena :=
  fun j => if j = idx then .stored r
    else if idx < j ∧ j < idx + r.len then .junk
    else a j

/-- Writing the zero `size_t` wraparound marker at `idx`
(`*((size_t *)(log_buf + log_next_idx)) = 0`), clobbering its 8 bytes. -/
def writeWrap (a : Arena) (idx : Nat) : Arena :=
  fun j => if j = idx then .wrapMark
    else if idx < j ∧ j < idx + 8 then .junk
    else a j

/-- The `len` field read at `idx`
(`((struct sec_log *)(log_buf + idx))->len`); `none` when the model does not
know the bytes at `idx`. -/
def lenAt (a : Arena) (idx : Nat) : Option Nat :=
  match a idx with
  | .stored r => some r.len
  | .wrapMark => some 0
  | .junk => none

/-- `next_record` (log.c): a zero length is the wraparound marker and sends
the cursor back to offset 0, otherwise the next record starts `len` bytes
further. -/
def next_record (a : Arena) (idx : Nat) : Option Nat :=
  match lenAt a idx with
  | some 0 => some 0
  | some len => some (idx + len)
  | none => none

/-- The global buffer state: `log_first_seq`, `log_first_idx`,
`log_next_seq`, `log_next_idx` and the arena. -/
structure LogState where
  firstSeq : Nat
  firstIdx : Nat
  nextSeq : Nat
  nextIdx : Nat
  arena : Arena

/-- The state at module load: empty buffer, both cursors at (0, 0). -/
def emptyState : LogState :=
  { firstSeq := 0, firstIdx := 0, nextSeq := 0, nextIdx := 0,
    arena := fun _ => .junk }

/-- The eviction loop of `find_new_record_place`.  Each iteration advances
`log_first_idx`/`log_first_seq` by one record, so the loop runs at most
`nextSeq - firstSeq` times, which is the fuel.  `need` is
`size + sizeof(struct sec_log)` with `size` already aligned. -/
def evictLoop (L : Layout) (need : Nat) : Nat → LogState → Option LogState
  | 0, st => some st
  | fuel + 1, st =>
    if st.firstSeq < st.nextSeq then
      let free :=
        if st.nextIdx > st.firstIdx then
          max (L.bufLen - st.nextIdx) st.firstIdx
        else st.firstIdx - st.nextIdx
      if free > need then some st
      else
        match next_record st.arena st.firstIdx with
        | none => none
        | some idx =>
          evictLoop L need fuel
            { st with firstIdx := idx, firstSeq := st.firstSeq + 1 }
    else some st

/-- `find_new_record_place` (log.c): align the size, evict old records until
enough contiguous space is free, then wrap to offset 0 (leaving the zero
marker behind) when the record would not fit before the physical end. -/
def find_new_record_place (L : Layout) (size : Nat) (st : LogState) :
    Option LogState :=
  match evictLoop L (alignSize L.logAlign size + L.szSec)
      (st.nextSeq - st.firstSeq) st with
  | none => none
  | some st1 =>
    if st1.nextIdx + alignSize L.logAlign size + L.szSec ≥ L.bufLen then
      some { st1 with arena := writeWrap st1.arena st1.nextIdx, nextIdx := 0 }
    else some st1

/-- The commit common to both producers: write the record at `log_next_idx`,
then `log_next_idx += record_size; log_next_seq++`. -/
def commitRecord (r : StoredRec) (st : LogState) : LogState :=
  { st with arena := writeRec st.arena st.nextIdx r,
            nextIdx := st.nextIdx + r.len,
            nextSeq := st.nextSeq + 1 }

/-- Address family constant `AF_INET` of the Linux ABI. -/
def AF_INET : Nat := 2

/-- Address family constant `AF_INET6` of the Linux ABI. -/
def AF_INET6 : Nat := 10

/-- `copy_ip` (log.c): copy 4 bytes for `AF_INET`, 16 for `AF_INET6`, nothing
otherwise; unwritten bytes of the 16-byte slot are unknown. -/
def copy_ip (src : List Nat) (family : Nat) : List (Option Nat) :=
  if family = AF_INET then
    (src.take 4).map some ++ List.replicate 12 none
  else if family = AF_INET6 then
    (src.take 16).map some ++ List.replicate (16 - min 16 src.length) none
  else List.replicate 16 none

/-- The address slot as filled by `store_netlog_record`: a NULL source
(`memset(record->src.raw, 0, 16)`) gives 16 zero bytes, otherwise `copy_ip`. -/
def storeAddr (ip : Option (List Nat)) (family : Nat) : List (Option Nat) :=
  match ip with
  | none => List.replicate 16 (some 0)
  | some a => copy_ip a family

/-- The record built by `store_netlog_record` for the given arguments: the
path length (`strlen(path) + 1`) is capped at
`min(LOG_BUF_LEN >> 4, INT_MAX)`, the stored path is the first `path_len`
bytes of the NUL-terminated source string, and `header.len` is
`sizeof(struct netlog_log) + path_len`. -/
def netRecOf (L : Layout) (process : Nat) (path : List Nat)
    (action protocol family : Nat)
    (srcIp : Option (List Nat)) (srcPort : Int)
    (dstIp : Option (List Nat)) (dstPort : Int) : StoredRec :=
  let pathLen0 := path.length + 1
  let path_len :=
    if pathLen0 > L.bufLen >>> 4 ∨ pathLen0 > INT_MAX then
      min (L.bufLen >>> 4) INT_MAX
    else pathLen0
  { len := L.szNet + path_len,
    process := process,
    body := .net
      { path_len := path_len, protocol := protocol, action := action,
        family := family, src_port := srcPort, dst_port := dstPort,
        src := storeAddr srcIp family, dst := storeAddr dstIp family,
        path := (path ++ [0]).take path_len } }

/-- `store_netlog_record` (log.c).  The C string argument is modelled as its
list of bytes before the terminating NUL; the process snapshot taken by
`fill_current_details` is the abstract `process` argument. -/
def store_netlog_record (L : Layout) (process : Nat) (path : List Nat)
    (action protocol family : Nat)
    (srcIp : Option (List Nat)) (srcPort : Int)
    (dstIp : Option (List Nat)) (dstPort : Int) (st : LogState) :
    Option LogState :=
  let r := netRecOf L process path action protocol family srcIp srcPort dstIp dstPort
  (find_new_record_place L r.len st).map (commitRecord r)

/-- The record built by `store_execlog_record`: path length and argv length
are each capped at `min(LOG_BUF_LEN >> 5, INT_MAX)`, `header.len` is
`sizeof(struct execlog_log) + path_len + argv_len`. -/
def execRecOf (L : Layout) (process : Nat) (path argv : List Nat) : StoredRec :=
  let pathLen0 := path.length + 1
  let path_len :=
    if pathLen0 > L.bufLen >>> 5 ∨ pathLen0 > INT_MAX then
      min (L.bufLen >>> 5) INT_MAX
    else pathLen0
  let argv_len :=
    if argv.length > L.bufLen >>> 5 ∨ argv.length > INT_MAX then
      min (L.bufLen >>> 5) INT_MAX
    else argv.length
  { len := L.szExec + path_len + argv_len,
    process := process,
    body := .exec
      { path_len := path_len, argv_len := argv_len,
        path := (path ++ [0]).take path_len,
        argv := argv.take argv_len } }

/-- `store_execlog_record` (log.c); the argv blob is its list of bytes,
`argv_size` being its length. -/
def store_execlog_record (L : Layout) (process : Nat) (path argv : List Nat)
    (st : LogState) : Option LogState :=
  let r := execRecOf L process path argv
  (find_new_record_place L r.len st).map (commitRecord r)

/-- The bytes printed by a `%.*s` conversion with the given precision: at most
`prec` bytes of the source, stopping at the first NUL. -/
def printPrec (prec : Nat) (bytes : List Nat) : List Nat :=
  (bytes.take prec).takeWhile (fun b => b ≠ 0)

/-- The helpers used by record rendering whose definitions are outside the
snapshot: the syslog/simple line prefix written by `secure_log_read`
(its timestamp comes from the abstract process snapshot), the
`CURRENT_DETAILS_FORMAT` identity text, the `print_netlog` payload text
(`none` models a negative `snprintf`-style return), and the buffer contents
left by the `TRUNC` fallback of `secure_log_read_fill_record`. -/
structure RenderEnv where
  header : Bool → StoredRec → List Nat
  identity : Nat → List Nat
  printNetlog : Nat → Nat → Nat → List (Option Nat) → Int →
    List (Option Nat) → Int → Option (List Nat)
  truncFill : List Nat

/-- The bytes of the fixed string printed for a corrupt record. -/
def brokenBytes : List Nat := ((String.toList "BROKEN RECCORD").map Char.toNat)

/-- `netlog_print` (log.c): render the path with `%.*s` precision `path_len`,
then the `print_netlog` payload, checking the remaining space exactly as
`UPDATE_POINTERS` does.  Returns the new `len` and the bytes appended, or
`none` for the `return 0` (truncated) paths. -/
def netlog_print (L : Layout) (env : RenderEnv) (f : NetFields)
    (recLen len : Nat) : Option (Nat × List Nat) :=
  let remaining := L.usrBuf - len
  if recLen < L.szNet then
    if brokenBytes.length ≥ remaining then none
    else some (len + brokenBytes.length, brokenBytes)
  else
    let b1 := printPrec f.path_len f.path ++ [32]
    if b1.length ≥ remaining then none
    else
      match env.printNetlog f.protocol f.family f.action
          f.src f.src_port f.dst f.dst_port with
      | none => none
      | some b2 =>
        if b2.length ≥ remaining - b1.length then none
        else some (len + b1.length + b2.length, b1 ++ b2)

/-- `execlog_print` (log.c): render `"%.*s %.*s"` with the stored path and
argv, under the same space accounting. -/
def execlog_print (L : Layout) (env : RenderEnv) (f : ExecFields)
    (recLen len : Nat) : Option (Nat × List Nat) :=
  let remaining := L.usrBuf - len
  if recLen < L.szExec then
    if brokenBytes.length ≥ remaining then none
    else some (len + brokenBytes.length, brokenBytes)
  else
    let b := printPrec f.path_len f.path ++ [32] ++ printPrec f.argv_len f.argv
    if b.length ≥ remaining then none
    else some (len + b.length, b)

/-- The full line built by `secure_log_read` for a record: the header prefix
(log.c lines 529-540), then `secure_log_read_fill_record` — the identity text
followed by a space, the type-dependent payload, the `TRUNC` fallback when the
payload rendering returned 0, and the final newline.  Returns the final `len`
and the delivered bytes. -/
def renderLine (L : Layout) (env : RenderEnv) (simple : Bool)
    (r : StoredRec) : Nat × List Nat :=
  let hdr := env.header simple r
  let idb := env.identity r.process ++ [32]
  let len1 := hdr.length + idb.length
  let res := match r.body with
    | .net f => netlog_print L env f r.len len1
    | .exec f => execlog_print L env f r.len len1
  match res with
  | some lb => (lb.1 + 1, hdr ++ idb ++ lb.2 ++ [10])
  | none => (L.usrBuf - 1, env.truncFill ++ [10])

/-- The per-open `struct user_data`: reader cursor, and the two behavioral
toggles latched from the module parameters at open time. -/
structure Session where
  currSeq : Nat
  currIdx : Nat
  simpleFormat : Bool
  sendEof : Bool
deriving DecidableEq

/-- The outcome of one `read` call: `-EAGAIN`, end-of-file, `-EPIPE`
(data loss), `-EINVAL` (caller buffer too small), or a delivered line. -/
inductive ReadRes where
  | eagain
  | eof
  | epipe
  | einval
  | line (bytes : List Nat)
deriving DecidableEq

/-- `secure_log_read` (log.c), for one call that does not block: when the
cursor is at the head, `-EAGAIN` in non-blocking mode or EOF in `send_eof`
mode (a call that would sleep on the wait queue is `none`); when the cursor
has fallen behind the oldest retained record, snap it forward and return
`-EPIPE`; otherwise render the record under the cursor (resolving the
wraparound marker to offset 0), advance the cursor with `next_record`, and
fail with `-EINVAL` after the advance when the line exceeds `count`. -/
def secure_log_read (L : Layout) (env : RenderEnv) (st : LogState)
    (sess : Session) (count : Nat) (nonblock : Bool) :
    Option (ReadRes × Session) :=
  if sess.currSeq = st.nextSeq then
    if nonblock then some (.eagain, sess)
    else if sess.sendEof then some (.eof, sess)
    else none
  else if sess.currSeq < st.firstSeq then
    some (.epipe, { sess with currSeq := st.firstSeq, currIdx := st.firstIdx })
  else
    match lenAt st.arena sess.currIdx with
    | none => none
    | some l =>
      let cell := if l = 0 then st.arena 0 else st.arena sess.currIdx
      match cell with
      | .stored r =>
        let lb := renderLine L env sess.simpleFormat r
        match next_record st.arena sess.currIdx with
        | none => none
        | some nidx =>
          let sess1 : Session :=
            { sess with currSeq := sess.currSeq + 1, currIdx := nidx }
          if lb.1 > count then some (.einval, sess1)
          else some (.line lb.2, sess1)
      | _ => none

/-- The `whence` argument of `llseek`; `other` covers every value outside
`SEEK_SET`/`SEEK_CUR`/`SEEK_END`. -/
inductive Whence where
  | seekSet
  | seekCur
  | seekEnd
  | other
deriving DecidableEq

/-- `secure_log_llseek` (log.c): a non-zero offset is accepted and returns 0
without touching the cursor; with offset 0, `SEEK_SET` rewinds to the oldest
retained record, `SEEK_CUR` is a no-op, `SEEK_END` jumps to the write
position, anything else is `-EINVAL`. -/
def secure_log_llseek (st : LogState) (sess : Session) (offset : Int)
    (w : Whence) : Int × Session :=
  if offset ≠ 0 then (0, sess)
  else
    match w with
    | .seekSet =>
      (0, { sess with currSeq := st.firstSeq, currIdx := st.firstIdx })
    | .seekCur => (0, sess)
    | .seekEnd =>
      (0, { sess with currSeq := st.nextSeq, currIdx := st.nextIdx })
    | .other => (-22, sess)

/-! ## Probe lifecycle manager -/

/-- The eight instrumentation hooks the probes file registers: the jprobe and
kretprobe on `inet_stream_connect` and `inet_dgram_connect`, the kretprobe on
accept, the jprobe on close (shared by the TCP and UDP close categories), and
the jprobe/kretprobe pair on bind. -/
inductive Hook where
  | streamConnJ
  | streamConnK
  | dgramConnJ
  | dgramConnK
  | acceptK
  | closeJ
  | bindJ
  | bindK
deriving DecidableEq

/-- Modelled from the spec: the probe category bit indices are declared in a
header absent from the snapshot (`probes.h`); only their distinctness matters
to the lifecycle logic, so they are modelled as the indices 0..5.  This is
`PROBE_TCP_CONNECT`. -/
def PROBE_TCP_CONNECT : Nat := 0

/-- Category bit index of `PROBE_TCP_ACCEPT` (see `PROBE_TCP_CONNECT`). -/
def PROBE_TCP_ACCEPT : Nat := 1

/-- Category bit index of `PROBE_TCP_CLOSE` (see `PROBE_TCP_CONNECT`). -/
def PROBE_TCP_CLOSE : Nat := 2

/-- Category bit index of `PROBE_UDP_CONNECT` (see `PROBE_TCP_CONNECT`). -/
def PROBE_UDP_CONNECT : Nat := 3

/-- Category bit index of `PROBE_UDP_BIND` (see `PROBE_TCP_CONNECT`). -/
def PROBE_UDP_BIND : Nat := 4

/-- Category bit index of `PROBE_UDP_CLOSE` (see `PROBE_TCP_CONNECT`). -/
def PROBE_UDP_CLOSE : Nat := 5

/-- The bitmask `1 << i` of a category. -/
def pbit (i : Nat) : Nat := 1 <<< i

/-- The C truth-value of `mask & (1 << i)`. -/
def testMask (mask i : Nat) : Bool := mask &&& pbit i != 0

/-- The error identities returned by the planting helpers
(`-CONNECT_PROBE_FAILED` and friends, declared in the absent header; only
their distinctness is used). -/
inductive PlantErr where
  | connectFailed
  | acceptFailed
  | closeFailed
  | bindFailed
deriving DecidableEq

/-- State of the lifecycle manager: the `loaded_probes` bitmask and, for each
hook, whether it is currently registered with the kernel. -/
structure ProbeState where
  loaded : Nat
  planted : Hook → Bool

/-- The manager state at module load: nothing active, nothing planted. -/
def probeSt0 : ProbeState := { loaded := 0, planted := fun _ => false }

/-- The outcome of `register_jprobe`/`register_kretprobe` is decided by the
kernel; it is modelled as an oracle giving each hook's registration success. -/
def HookEnv : Type := Hook → Bool

/-- `plant_jprobe`/`plant_kretprobe`: on success the hook becomes planted,
on failure the state is unchanged. -/
def registerHook (env : HookEnv) (h : Hook) (st : ProbeState) :
    Bool × ProbeState :=
  if env h then
    (true, { st with planted := fun h2 => if h2 = h then true else st.planted h2 })
  else (false, st)

/-- `unregister_jprobe`/`unregister_kretprobe`: the hook is no longer
planted. -/
def unregisterHook (h : Hook) (st : ProbeState) : ProbeState :=
  { st with planted := fun h2 => if h2 = h then false else st.planted h2 }

/-- `plant_tcp_connect`: jprobe first, then kretprobe; when the kretprobe
registration fails the freshly planted jprobe is unregistered again. -/
def plant_tcp_connect (env : HookEnv) (st : ProbeState) :
    Option PlantErr × ProbeState :=
  let s1 := registerHook env .streamConnJ st
  if !s1.1 then (some .connectFailed, s1.2)
  else
    let s2 := registerHook env .streamConnK s1.2
    if !s2.1 then (some .connectFailed, unregisterHook .streamConnJ s2.2)
    else (none, s2.2)

/-- `plant_udp_connect`, same shape on the dgram hooks. -/
def plant_udp_connect (env : HookEnv) (st : ProbeState) :
    Option PlantErr × ProbeState :=
  let s1 := registerHook env .dgramConnJ st
  if !s1.1 then (some .connectFailed, s1.2)
  else
    let s2 := registerHook env .dgramConnK s1.2
    if !s2.1 then (some .connectFailed, unregisterHook .dgramConnJ s2.2)
    else (none, s2.2)

/-- `plant_tcp_accept`: the single accept kretprobe. -/
def plant_tcp_accept (env : HookEnv) (st : ProbeState) :
    Option PlantErr × ProbeState :=
  let s1 := registerHook env .acceptK st
  if !s1.1 then (some .acceptFailed, s1.2) else (none, s1.2)

/-- `plant_close`: the single close jprobe shared by both close categories. -/
def plant_close (env : HookEnv) (st : ProbeState) :
    Option PlantErr × ProbeState :=
  let s1 := registerHook env .closeJ st
  if !s1.1 then (some .closeFailed, s1.2) else (none, s1.2)

/-- `plant_udp_bind`: jprobe then kretprobe, with the same rollback of the
jprobe when the kretprobe registration fails. -/
def plant_udp_bind (env : HookEnv) (st : ProbeState) :
    Option PlantErr × ProbeState :=
  let s1 := registerHook env .bindJ st
  if !s1.1 then (some .bindFailed, s1.2)
  else
    let s2 := registerHook env .bindK s1.2
    if !s2.1 then (some .bindFailed, unregisterHook .bindJ s2.2)
    else (none, s2.2)

/-- One `if (new_probes & (1 << bitIdx)) { err = plant_x(); if (err) goto
unlock; loaded_probes |= 1 << bitIdx; }` step of `plant_probe`. -/
def plantStep (cond : Bool)
    (planter : ProbeState → Option PlantErr × ProbeState) (bitIdx : Nat)
    (st : ProbeState) : Except (PlantErr × ProbeState) ProbeState :=
  if cond then
    match planter st with
    | (some e, st1) => .error (e, st1)
    | (none, st1) => .ok { st1 with loaded := st1.loaded ||| pbit bitIdx }
  else .ok st

/-- The close-category step of `plant_probe`: the shared close hook is only
registered when the sibling close category is not already active. -/
def plantCloseStep (cond : Bool) (env : HookEnv) (otherBit myBit : Nat)
    (st : ProbeState) : Except (PlantErr × ProbeState) ProbeState :=
  if cond then
    if !testMask st.loaded otherBit then
      match plant_close env st with
      | (some e, st1) => .error (e, st1)
      | (none, st1) => .ok { st1 with loaded := st1.loaded ||| pbit myBit }
    else .ok { st with loaded := st.loaded ||| pbit myBit }
  else .ok st

/-- `plant_probe` (probes file): compute the not-yet-planted categories
`(probe ^ loaded_probes) & probe` once, then plant them in the fixed order
TCP connect, TCP accept, TCP close, UDP connect, UDP bind, UDP close,
aborting at the first failure with the bitmask as updated so far. -/
def plant_probe (env : HookEnv) (probe : Nat) (st : ProbeState) :
    Option PlantErr × ProbeState :=
  let newP := (probe ^^^ st.loaded) &&& probe
  let run : Except (PlantErr × ProbeState) ProbeState := do
    let s1 ← plantStep (testMask newP PROBE_TCP_CONNECT)
      (plant_tcp_connect env) PROBE_TCP_CONNECT st
    let s2 ← plantStep (testMask newP PROBE_TCP_ACCEPT)
      (plant_tcp_accept env) PROBE_TCP_ACCEPT s1
    let s3 ← plantCloseStep (testMask newP PROBE_TCP_CLOSE) env
      PROBE_UDP_CLOSE PROBE_TCP_CLOSE s2
    let s4 ← plantStep (testMask newP PROBE_UDP_CONNECT)
      (plant_udp_connect env) PROBE_UDP_CONNECT s3
    let s5 ← plantStep (testMask newP PROBE_UDP_BIND)
      (plant_udp_bind env) PROBE_UDP_BIND s4
    let s6 ← plantCloseStep (testMask newP PROBE_UDP_CLOSE) env
      PROBE_TCP_CLOSE PROBE_UDP_CLOSE s5
    pure s6
  match run with
  | .ok st1 => (none, st1)
  | .error est => (some est.1, est.2)

/-- `unplant_tcp_connect`. -/
def unplant_tcp_connect (st : ProbeState) : ProbeState :=
  unregisterHook .streamConnK (unregisterHook .streamConnJ st)

/-- `unplant_udp_connect`. -/
def unplant_udp_connect (st : ProbeState) : ProbeState :=
  unregisterHook .dgramConnK (unregisterHook .dgramConnJ st)

/-- `unplant_tcp_accept`. -/
def unplant_tcp_accept (st : ProbeState) : ProbeState :=
  unregisterHook .acceptK st

/-- `unplant_close`. -/
def unplant_close (st : ProbeState) : ProbeState :=
  unregisterHook .closeJ st

/-- `unplant_udp_bind`. -/
def unplant_udp_bind (st : ProbeState) : ProbeState :=
  unregisterHook .bindK (unregisterHook .bindJ st)

/-- The combined mask of the two close categories. -/
def closeMask : Nat := pbit PROBE_TCP_CLOSE ||| pbit PROBE_UDP_CLOSE

/-- An `if (condition) state = f(state);` step of `unplant_probe_locked`. -/
def condApply (b : Bool) (f : ProbeState → ProbeState) (st : ProbeState) :
    ProbeState :=
  if b then f st else st

/-- `unplant_probe_locked` (probes file): drop the requested categories from
`loaded_probes` first, then unregister the hooks of each removed category;
the shared close hook is unregistered only when, after the update, neither
close category remains active. -/
def unplant_probe_locked (probe : Nat) (st : ProbeState) : ProbeState :=
  let removed := st.loaded &&& probe
  let st1 := { st with loaded := st.loaded ^^^ removed }
  let st2 := condApply (testMask removed PROBE_TCP_CONNECT)
    unplant_tcp_connect st1
  let st3 := condApply (testMask removed PROBE_TCP_ACCEPT)
    unplant_tcp_accept st2
  let st4 := condApply (removed &&& closeMask != 0)
    (fun s => condApply (s.loaded &&& closeMask == 0) unplant_close s) st3
  let st5 := condApply (testMask removed PROBE_UDP_CONNECT)
    unplant_udp_connect st4
  condApply (testMask removed PROBE_UDP_BIND) unplant_udp_bind st5

/-- `unplant_probe` (takes the lock and delegates). -/
def unplant_probe (probe : Nat) (st : ProbeState) : ProbeState :=
  unplant_probe_locked probe st

/-! ## Replay of append sequences (for the order/content property) -/

/-- One producer call: the arguments of a `store_netlog_record` or
`store_execlog_record` invocation. -/
inductive Req where
  | net (process : Nat) (path : List Nat) (action protocol family : Nat)
      (srcIp : Option (List Nat)) (srcPort : Int)
      (dstIp : Option (List Nat)) (dstPort : Int)
  | exec (process : Nat) (path argv : List Nat)
deriving DecidableEq

/-- The record a request appends. -/
def recOf (L : Layout) : Req → StoredRec
  | .net p path a pr f si sp di dp => netRecOf L p path a pr f si sp di dp
  | .exec p path argv => execRecOf L p path argv

/-- Dispatch a request to the producer it denotes. -/
def applyReq (L : Layout) (q : Req) (st : LogState) : Option LogState :=
  match q with
  | .net p path a pr f si sp di dp =>
    store_netlog_record L p path a pr f si sp di dp st
  | .exec p path argv => store_execlog_record L p path argv st

/-- Run a sequence of producer calls in order. -/
def runReqs (L : Layout) : List Req → LogState → Option LogState
  | [], st => some st
  | q :: qs, st =>
    match applyReq L q st with
    | none => none
    | some st1 => runReqs L qs st1

/-- Walk `n` records from `idx` by repeatedly applying `next_record`,
collecting the record found under each successive cursor position. -/
def walk (a : Arena) (idx : Nat) : Nat → Option (List StoredRec)
  | 0 => some []
  | n + 1 =>
    match a idx, next_record a idx with
    | .stored r, some nidx => (walk a nidx n).map (fun l => r :: l)
    | _, _ => none

/-- Total byte length of a list of records. -/
def totalLen (recs : List StoredRec) : Nat := (recs.map (fun r => r.len)).sum

/-- The arena holding `recs` laid out contiguously from `base`, junk
everywhere else. -/
def layoutArena : List StoredRec → Nat → Arena
  | [], _ => fun _ => .junk
  | r :: rs, base => fun j =>
    if j = base then .stored r
    else if base < j ∧ j < base + r.len then .junk
    else layoutArena rs (base + r.len) j

/-- The buffer state after the records `recs` have been appended from the
initial state without any eviction or wraparound. -/
def goodState (recs : List StoredRec) : LogState :=
  { firstSeq := 0, firstIdx := 0, nextSeq := recs.length,
    nextIdx := totalLen recs, arena := layoutArena recs 0 }

/-- Sum of the aligned sizes (plus nothing else) of the records a request
list appends, the quantity the free-space check of `find_new_record_place`
is measured against. -/
def sumAligned (L : Layout) (qs : List Req) : Nat :=
  (qs.map (fun q => alignSize L.logAlign (recOf L q).len)).sum

/-! ## Concrete instances used by witnesses -/

/-- A representative layout for the 64-bit host: `LOG_BUF_LEN = 1024`,
`USER_BUFFER_SIZE = 256`, `sizeof(struct sec_log) = 40`,
`sizeof(struct netlog_log) = 104`, `sizeof(struct execlog_log) = 56`,
`LOG_ALIGN = 8`. -/
def exL : Layout :=
  { bufLen := 1024, usrBuf := 256, szSec := 40, szNet := 104, szExec := 56,
    logAlign := 8 }

/-- A minimal rendering environment: empty prefix, empty identity, empty
`print_netlog` payload. -/
def envT : RenderEnv :=
  { header := fun _ _ => [], identity := fun _ => [],
    printNetlog := fun _ _ _ _ _ _ _ => some [],
    truncFill := List.replicate 254 0 }

/-- The all-junk arena (used by concrete witness states). -/
def junkArena : Arena := fun _ => .junk

/-- A concrete netlog record with the one-byte path `[97]`. -/
def r97 : StoredRec := netRecOf exL 0 [97] 0 0 2 none 0 none 0

/-- A concrete netlog record with the one-byte path `[98]`. -/
def r98 : StoredRec := netRecOf exL 0 [98] 0 0 2 none 0 none 0

/-! ## Helper lemmas -/

theorem pbit_testBit (c i : Nat) : (pbit c).testBit i = decide (c = i) := by
  unfold pbit
  rw [Nat.one_shiftLeft]
  exact Nat.testBit_two_pow

theorem testMask_eq (m i : Nat) : testMask m i = m.testBit i := by
  unfold testMask pbit
  rw [Nat.one_shiftLeft]
  cases h : m.testBit i with
  | false =>
    have hz : m &&& 2 ^ i = 0 := by
      refine Nat.eq_of_testBit_eq fun j => ?_
      rw [Nat.testBit_land]
      rcases eq_or_ne j i with rfl | hj
      · simp [h]
      · simp [Nat.testBit_two_pow_of_ne (Ne.symm hj)]
    simp [hz]
  | true =>
    have ht : Nat.testBit (m &&& 2 ^ i) i = true := by
      rw [Nat.testBit_land]
      simp [h, Nat.testBit_two_pow_self]
    have hne : m &&& 2 ^ i ≠ 0 := by
      intro h0
      rw [h0] at ht
      simp at ht
    simp [hne]

theorem next_record_stored (a : Arena) (idx : Nat) (r : StoredRec)
    (h : a idx = Cell.stored r) (hl : r.len ≠ 0) :
    next_record a idx = some (idx + r.len) := by
  have hlen : lenAt a idx = some r.len := by
    unfold lenAt
    rw [h]
  unfold next_record
  rw [hlen]
  rcases Nat.exists_eq_succ_of_ne_zero hl with ⟨n, hn⟩
  rw [hn]
  rfl

/-! ## C2 — the stored record length is NOT aligned -/

/-- C2 claims every stored `header.len` is a multiple of `LOG_ALIGN`.
The source computes the aligned size only inside `find_new_record_place`
(whose `size` parameter is passed by value), then stores the unaligned
`sizeof(struct netlog_log) + path_len` in `header.len` and advances
`log_next_idx` by it: for the one-character path the stored length is
`szNet + 2`, which is not a multiple of the alignment of
`struct netlog_log`, while the discarded aligned value differs. -/
theorem stored_len_not_aligned :
    (store_netlog_record exL 0 [97] 0 0 2 none 0 none 0 emptyState).map
        (fun st => lenAt st.arena 0) = some (some (exL.szNet + 2))
      ∧ ¬ exL.logAlign ∣ exL.szNet + 2
      ∧ alignSize exL.logAlign (exL.szNet + 2) ≠ exL.szNet + 2
      ∧ (store_netlog_record exL 0 [97] 0 0 2 none 0 none 0 emptyState).map
        (fun st => st.nextIdx) = some (exL.szNet + 2) := by
  refine ⟨by decide, by decide, by decide, by decide⟩

/-! ## C7 — llseek -/

/-- C7 claims that for every offset value the whence action is applied with
the offset ignored.  At a non-zero offset the source returns 0 before the
whence switch: here `seek(1, SEEK_SET)` returns 0 yet leaves the cursor
untouched, away from the oldest retained record. -/
theorem seek_nonzero_offset_not_applied :
    (secure_log_llseek ⟨3, 16, 5, 80, fun _ => .junk⟩ ⟨7, 40, false, false⟩
        1 .seekSet).1 = 0
      ∧ (secure_log_llseek ⟨3, 16, 5, 80, fun _ => .junk⟩ ⟨7, 40, false, false⟩
        1 .seekSet).2 = ⟨7, 40, false, false⟩
      ∧ (⟨7, 40, false, false⟩ : Session).currSeq
          ≠ (⟨3, 16, 5, 80, fun _ => .junk⟩ : LogState).firstSeq := by
  refine ⟨by decide, by decide, by decide⟩

/-- C7 amended: for `whence` in {SEEK_SET, SEEK_CUR, SEEK_END} the call
returns 0; when `offset = 0` the cursor moves to the oldest retained record
for SEEK_SET, stays for SEEK_CUR, and jumps to the write position for
SEEK_END; when `offset ≠ 0` the call is accepted (returns 0) but the cursor
is left unchanged for every whence value. -/
theorem seek_semantics (st : LogState) (sess : Session) (offset : Int)
    (w : Whence) (hw : w ≠ Whence.other) :
    (secure_log_llseek st sess offset w).1 = 0
      ∧ (offset ≠ 0 → (secure_log_llseek st sess offset w).2 = sess)
      ∧ (offset = 0 →
        (w = .seekSet → (secure_log_llseek st sess offset w).2
          = { sess with currSeq := st.firstSeq, currIdx := st.firstIdx })
        ∧ (w = .seekCur → (secure_log_llseek st sess offset w).2 = sess)
        ∧ (w = .seekEnd → (secure_log_llseek st sess offset w).2
          = { sess with currSeq := st.nextSeq, currIdx := st.nextIdx })) := by
  unfold secure_log_llseek
  by_cases h0 : offset = 0
  · subst h0
    cases w with
    | seekSet => simp
    | seekCur => simp
    | seekEnd => simp
    | other => exact absurd rfl hw
  · simp [h0]

/-- Witness for `seek_semantics` at a concrete state, offset and whence. -/
theorem seek_semantics_witness :
    (Whence.seekSet ≠ Whence.other)
      ∧ ((secure_log_llseek ⟨3, 16, 5, 80, fun _ => .junk⟩ ⟨7, 40, false, false⟩
            0 .seekSet).1 = 0
        ∧ ((0 : Int) ≠ 0 →
            (secure_log_llseek ⟨3, 16, 5, 80, fun _ => .junk⟩
              ⟨7, 40, false, false⟩ 0 .seekSet).2 = ⟨7, 40, false, false⟩)
        ∧ ((0 : Int) = 0 →
          (Whence.seekSet = .seekSet →
            (secure_log_llseek ⟨3, 16, 5, 80, fun _ => .junk⟩
                ⟨7, 40, false, false⟩ 0 .seekSet).2
              = { (⟨7, 40, false, false⟩ : Session) with
                  currSeq := (⟨3, 16, 5, 80, fun _ => .junk⟩ : LogState).firstSeq,
                  currIdx := (⟨3, 16, 5, 80, fun _ => .junk⟩ : LogState).firstIdx })
          ∧ (Whence.seekSet = .seekCur →
            (secure_log_llseek ⟨3, 16, 5, 80, fun _ => .junk⟩
                ⟨7, 40, false, false⟩ 0 .seekSet).2 = ⟨7, 40, false, false⟩)
          ∧ (Whence.seekSet = .seekEnd →
            (secure_log_llseek ⟨3, 16, 5, 80, fun _ => .junk⟩
                ⟨7, 40, false, false⟩ 0 .seekSet).2
              = { (⟨7, 40, false, false⟩ : Session) with
                  currSeq := (⟨3, 16, 5, 80, fun _ => .junk⟩ : LogState).nextSeq,
                  currIdx := (⟨3, 16, 5, 80, fun _ => .junk⟩ : LogState).nextIdx }))) :=
  ⟨by decide, seek_semantics _ _ _ _ (by decide)⟩

/-! ## C10 — NULL address pointers give an all-zero 16-byte slot -/

/-- C10: when the source (resp. destination) address pointer passed to
`store_netlog_record` is NULL, the 16-byte address slot of the stored record
is entirely zeroed by the `memset`, whatever the address family is. -/
theorem null_ip_zero_slot (L : Layout) (process : Nat) (path : List Nat)
    (action protocol family : Nat) (srcIp dstIp : Option (List Nat))
    (srcPort dstPort : Int) (st st1 : LogState)
    (h : store_netlog_record L process path action protocol family
      srcIp srcPort dstIp dstPort st = some st1) :
    ∃ i f,
      st1.arena i
        = Cell.stored (netRecOf L process path action protocol family
            srcIp srcPort dstIp dstPort)
      ∧ (netRecOf L process path action protocol family
            srcIp srcPort dstIp dstPort).body = RecBody.net f
      ∧ (srcIp = none → f.src = List.replicate 16 (some 0))
      ∧ (dstIp = none → f.dst = List.replicate 16 (some 0)) := by
  unfold store_netlog_record at h
  rcases Option.map_eq_some'.mp h with ⟨st2, hfind, hcommit⟩
  refine ⟨st2.nextIdx, _, ?_, rfl, ?_, ?_⟩
  · rw [← hcommit]
    unfold commitRecord writeRec
    simp
  · intro hs
    subst hs
    rfl
  · intro hd
    subst hd
    rfl

/-- Evaluation of one `read` call whose cursor sits on a stored record:
the record is rendered, the cursor advances past it, and the result is the
line, or `-EINVAL` when it exceeds `count`. -/
theorem read_delivers (L : Layout) (env : RenderEnv) (st : LogState)
    (sess : Session) (count : Nat) (nb : Bool) (r : StoredRec)
    (h1 : sess.currSeq ≠ st.nextSeq) (h2 : ¬ sess.currSeq < st.firstSeq)
    (h3 : st.arena sess.currIdx = Cell.stored r) (h4 : r.len ≠ 0) :
    secure_log_read L env st sess count nb
      = if (renderLine L env sess.simpleFormat r).1 > count
        then some (.einval,
          { sess with currSeq := sess.currSeq + 1, currIdx := sess.currIdx + r.len })
        else some (.line (renderLine L env sess.simpleFormat r).2,
          { sess with currSeq := sess.currSeq + 1, currIdx := sess.currIdx + r.len }) := by
  have hlen : lenAt st.arena sess.currIdx = some r.len := by
    unfold lenAt
    rw [h3]
  unfold secure_log_read
  rw [if_neg h1, if_neg h2, hlen]
  simp only [if_neg h4, h3, next_record_stored st.arena sess.currIdx r h3 h4]

/-- Evaluation of one `read` call whose cursor sits on the wraparound
marker: the record rendered is the one at offset 0, and the cursor is sent
to offset 0 by `next_record`. -/
theorem read_over_marker (L : Layout) (env : RenderEnv) (st : LogState)
    (sess : Session) (count : Nat) (nb : Bool) (r : StoredRec)
    (h1 : sess.currSeq ≠ st.nextSeq) (h2 : ¬ sess.currSeq < st.firstSeq)
    (h3 : st.arena sess.currIdx = Cell.wrapMark)
    (h4 : st.arena 0 = Cell.stored r) :
    secure_log_read L env st sess count nb
      = if (renderLine L env sess.simpleFormat r).1 > count
        then some (.einval,
          { sess with currSeq := sess.currSeq + 1, currIdx := 0 })
        else some (.line (renderLine L env sess.simpleFormat r).2,
          { sess with currSeq := sess.currSeq + 1, currIdx := 0 }) := by
  have hlen : lenAt st.arena sess.currIdx = some 0 := by
    unfold lenAt
    rw [h3]
  have hnext : next_record st.arena sess.currIdx = some 0 := by
    unfold next_record
    rw [hlen]
  unfold secure_log_read
  rw [if_neg h1, if_neg h2, hlen]
  simp [h4, hnext]

/-- Witness for `null_ip_zero_slot`: a concrete call with both pointers
NULL under the IPv6 family. -/
theorem null_ip_zero_slot_witness :
    (store_netlog_record exL 0 [97] 0 0 10 none 0 none 0 emptyState
        = some (commitRecord (netRecOf exL 0 [97] 0 0 10 none 0 none 0)
            emptyState))
      ∧ ∃ i f,
        (commitRecord (netRecOf exL 0 [97] 0 0 10 none 0 none 0)
            emptyState).arena i
          = Cell.stored (netRecOf exL 0 [97] 0 0 10 none 0 none 0)
        ∧ (netRecOf exL 0 [97] 0 0 10 none 0 none 0).body = RecBody.net f
        ∧ ((none : Option (List Nat)) = none → f.src = List.replicate 16 (some 0))
        ∧ ((none : Option (List Nat)) = none → f.dst = List.replicate 16 (some 0)) :=
  ⟨rfl, null_ip_zero_slot exL 0 [97] 0 0 10 none none 0 0 emptyState _ rfl⟩

/-! ## C5 — overflowed reader: one data-loss signal, then resumption -/

/-- C5: a reader whose cursor sequence has fallen below the oldest retained
sequence gets, on its next `read`, the cursor snapped to the oldest retained
record and the single `-EPIPE` data-loss signal; the following `read` (no
interleaved producer activity) delivers the record at the new oldest cursor
normally and advances past it. -/
theorem read_overflow_snaps_then_resumes (L : Layout) (env : RenderEnv)
    (st : LogState) (sess : Session) (count : Nat) (nb : Bool) (r : StoredRec)
    (h1 : sess.currSeq < st.firstSeq)
    (h2 : st.firstSeq < st.nextSeq)
    (h3 : st.arena st.firstIdx = Cell.stored r)
    (h4 : r.len ≠ 0)
    (h5 : ¬ (renderLine L env sess.simpleFormat r).1 > count) :
    secure_log_read L env st sess count nb
      = some (.epipe, { sess with currSeq := st.firstSeq, currIdx := st.firstIdx })
    ∧ secure_log_read L env st
        { sess with currSeq := st.firstSeq, currIdx := st.firstIdx } count nb
      = some (.line (renderLine L env sess.simpleFormat r).2,
          { sess with currSeq := st.firstSeq + 1,
                      currIdx := st.firstIdx + r.len }) := by
  constructor
  · have hne : sess.currSeq ≠ st.nextSeq := Nat.ne_of_lt (Nat.lt_trans h1 h2)
    unfold secure_log_read
    rw [if_neg hne, if_pos h1]
  · rw [read_delivers L env st
      { sess with currSeq := st.firstSeq, currIdx := st.firstIdx } count nb r
      (Nat.ne_of_lt h2) (Nat.lt_irrefl st.firstSeq) h3 h4, if_neg h5]

/-- Witness for `read_overflow_snaps_then_resumes` at a concrete overflowed
state. -/
theorem read_overflow_snaps_witness :
    ((1 : Nat) < 3 ∧ (3 : Nat) < 4
      ∧ (⟨3, 0, 4, 106, writeRec junkArena 0 r97⟩ : LogState).arena 0
          = Cell.stored r97
      ∧ r97.len ≠ 0
      ∧ ¬ (renderLine exL envT false r97).1 > 100)
    ∧ (secure_log_read exL envT ⟨3, 0, 4, 106, writeRec junkArena 0 r97⟩
          ⟨1, 0, false, false⟩ 100 false = some (.epipe, ⟨3, 0, false, false⟩)
      ∧ secure_log_read exL envT ⟨3, 0, 4, 106, writeRec junkArena 0 r97⟩
          ⟨3, 0, false, false⟩ 100 false
        = some (.line (renderLine exL envT false r97).2, ⟨4, 106, false, false⟩)) :=
  ⟨⟨by decide, by decide, by decide, by decide, by decide⟩,
    read_overflow_snaps_then_resumes exL envT
      ⟨3, 0, 4, 106, writeRec junkArena 0 r97⟩ ⟨1, 0, false, false⟩ 100 false r97
      (by decide) (by decide) (by decide) (by decide) (by decide)⟩

/-! ## C9 — buffer-too-small error skips the record -/

/-- C9: when the rendered line of the record under the cursor exceeds the
caller-supplied `count`, `read` returns `-EINVAL` with no bytes delivered,
but the cursor has already been advanced past that record; the retry — here
with a buffer large enough — delivers the record after it, not the one whose
delivery failed. -/
theorem read_einval_skips_record (L : Layout) (env : RenderEnv)
    (st : LogState) (sess : Session) (rA rB : StoredRec) (c1 c2 : Nat)
    (nb : Bool)
    (h1 : sess.currSeq ≠ st.nextSeq)
    (h2 : ¬ sess.currSeq < st.firstSeq)
    (hA : st.arena sess.currIdx = Cell.stored rA)
    (hlA : rA.len ≠ 0)
    (hbig : (renderLine L env sess.simpleFormat rA).1 > c1)
    (h1b : sess.currSeq + 1 ≠ st.nextSeq)
    (h2b : ¬ sess.currSeq + 1 < st.firstSeq)
    (hB : st.arena (sess.currIdx + rA.len) = Cell.stored rB)
    (hlB : rB.len ≠ 0)
    (hfit : ¬ (renderLine L env sess.simpleFormat rB).1 > c2) :
    secure_log_read L env st sess c1 nb
      = some (.einval,
          { sess with currSeq := sess.currSeq + 1,
                      currIdx := sess.currIdx + rA.len })
    ∧ secure_log_read L env st
        { sess with currSeq := sess.currSeq + 1,
                    currIdx := sess.currIdx + rA.len } c2 nb
      = some (.line (renderLine L env sess.simpleFormat rB).2,
          { sess with currSeq := sess.currSeq + 1 + 1,
                      currIdx := sess.currIdx + rA.len + rB.len }) := by
  constructor
  · rw [read_delivers L env st sess c1 nb rA h1 h2 hA hlA, if_pos hbig]
  · rw [read_delivers L env st
      { sess with currSeq := sess.currSeq + 1,
                  currIdx := sess.currIdx + rA.len } c2 nb rB h1b h2b hB hlB,
      if_neg hfit]

/-- Witness for `read_einval_skips_record`: two records at offsets 0 and 106,
a first call with a 3-byte buffer, a retry with a 100-byte buffer. -/
theorem read_einval_skips_witness :
    (((0 : Nat) ≠ 2) ∧ (¬ (0 : Nat) < 0)
      ∧ (⟨0, 0, 2, 212, writeRec (writeRec junkArena 0 r97) 106 r98⟩ :
          LogState).arena 0 = Cell.stored r97
      ∧ r97.len ≠ 0
      ∧ (renderLine exL envT false r97).1 > 3
      ∧ ((0 : Nat) + 1 ≠ 2) ∧ (¬ (0 : Nat) + 1 < 0)
      ∧ (⟨0, 0, 2, 212, writeRec (writeRec junkArena 0 r97) 106 r98⟩ :
          LogState).arena (0 + r97.len) = Cell.stored r98
      ∧ r98.len ≠ 0
      ∧ ¬ (renderLine exL envT false r98).1 > 100)
    ∧ (secure_log_read exL envT
          ⟨0, 0, 2, 212, writeRec (writeRec junkArena 0 r97) 106 r98⟩
          ⟨0, 0, false, false⟩ 3 false
        = some (.einval, ⟨0 + 1, 0 + r97.len, false, false⟩)
      ∧ secure_log_read exL envT
          ⟨0, 0, 2, 212, writeRec (writeRec junkArena 0 r97) 106 r98⟩
          ⟨0 + 1, 0 + r97.len, false, false⟩ 100 false
        = some (.line (renderLine exL envT false r98).2,
            ⟨0 + 1 + 1, 0 + r97.len + r98.len, false, false⟩)) :=
  ⟨⟨by decide, by decide, by decide, by decide, by decide, by decide, by decide,
      by decide, by decide, by decide⟩,
    read_einval_skips_record exL envT
      ⟨0, 0, 2, 212, writeRec (writeRec junkArena 0 r97) 106 r98⟩
      ⟨0, 0, false, false⟩ r97 r98 3 100 false
      (by decide) (by decide) (by decide) (by decide) (by decide) (by decide)
      (by decide) (by decide) (by decide) (by decide)⟩


/-! ## C4 — wraparound -/

/-- When the oldest record's offset alone already leaves more than `need`
bytes free, the eviction loop of `find_new_record_place` exits at once,
evicting nothing. -/
theorem evictLoop_break (L : Layout) (need fuel : Nat) (st : LogState)
    (h1 : need < st.firstIdx) (h2 : st.firstIdx < st.nextIdx) :
    evictLoop L need fuel st = some st := by
  cases fuel with
  | zero => rfl
  | succ k =>
    unfold evictLoop
    by_cases h3 : st.firstSeq < st.nextSeq
    · rw [if_pos h3]
      have hfree : (if st.nextIdx > st.firstIdx then
          max (L.bufLen - st.nextIdx) st.firstIdx
          else st.firstIdx - st.nextIdx) > need := by
        rw [if_pos h2]
        exact lt_of_lt_of_le h1 (le_max_right _ _)
      simp only [hfree, if_pos]
    · rw [if_neg h3]

/-- When no eviction is needed but the record does not fit before the
physical end of the arena, `find_new_record_place` writes the wraparound
marker at the current write offset and resets it to 0. -/
theorem find_place_wrap (L : Layout) (size : Nat) (st : LogState)
    (h1 : alignSize L.logAlign size + L.szSec < st.firstIdx)
    (h2 : st.firstIdx < st.nextIdx)
    (h4 : L.bufLen ≤ st.nextIdx + (alignSize L.logAlign size + L.szSec)) :
    find_new_record_place L size st
      = some { st with arena := writeWrap st.arena st.nextIdx, nextIdx := 0 } := by
  unfold find_new_record_place
  rw [evictLoop_break L _ _ st h1 h2]
  have hge : st.nextIdx + alignSize L.logAlign size + L.szSec ≥ L.bufLen := by
    omega
  show (if st.nextIdx + alignSize L.logAlign size + L.szSec ≥ L.bufLen then
      some { st with arena := writeWrap st.arena st.nextIdx, nextIdx := 0 }
    else some st)
    = some { st with arena := writeWrap st.arena st.nextIdx, nextIdx := 0 }
  rw [if_pos hge]

/-- C4: when the incoming record does not fit between the write offset and
the physical end of the arena although the free space in front of the oldest
record alone is sufficient, the append writes the zero-length wraparound
marker at the old write offset, places the record at offset 0 without
evicting anything, and a reader whose cursor sits on the marker delivers the
record stored at offset 0 — not the marker — while its cursor is sent to
offset 0. -/
theorem wraparound_no_evict_and_reader_crosses :
    (∀ (L : Layout) (process : Nat) (path : List Nat)
      (action protocol family : Nat) (srcIp : Option (List Nat)) (srcPort : Int)
      (dstIp : Option (List Nat)) (dstPort : Int) (st : LogState),
      alignSize L.logAlign
          (netRecOf L process path action protocol family srcIp srcPort
            dstIp dstPort).len + L.szSec < st.firstIdx →
      st.firstIdx < st.nextIdx →
      L.bufLen ≤ st.nextIdx + (alignSize L.logAlign
          (netRecOf L process path action protocol family srcIp srcPort
            dstIp dstPort).len + L.szSec) →
      store_netlog_record L process path action protocol family srcIp srcPort
          dstIp dstPort st
        = some (commitRecord
            (netRecOf L process path action protocol family srcIp srcPort
              dstIp dstPort)
            { st with arena := writeWrap st.arena st.nextIdx, nextIdx := 0 })
      ∧ (commitRecord
            (netRecOf L process path action protocol family srcIp srcPort
              dstIp dstPort)
            { st with arena := writeWrap st.arena st.nextIdx,
                      nextIdx := 0 }).firstSeq = st.firstSeq
      ∧ (commitRecord
            (netRecOf L process path action protocol family srcIp srcPort
              dstIp dstPort)
            { st with arena := writeWrap st.arena st.nextIdx,
                      nextIdx := 0 }).firstIdx = st.firstIdx
      ∧ (commitRecord
            (netRecOf L process path action protocol family srcIp srcPort
              dstIp dstPort)
            { st with arena := writeWrap st.arena st.nextIdx,
                      nextIdx := 0 }).arena st.nextIdx = Cell.wrapMark
      ∧ lenAt (commitRecord
            (netRecOf L process path action protocol family srcIp srcPort
              dstIp dstPort)
            { st with arena := writeWrap st.arena st.nextIdx,
                      nextIdx := 0 }).arena st.nextIdx = some 0
      ∧ (commitRecord
            (netRecOf L process path action protocol family srcIp srcPort
              dstIp dstPort)
            { st with arena := writeWrap st.arena st.nextIdx,
                      nextIdx := 0 }).arena 0
          = Cell.stored (netRecOf L process path action protocol family srcIp
              srcPort dstIp dstPort))
    ∧ (∀ (L : Layout) (env : RenderEnv) (st : LogState) (sess : Session)
      (count : Nat) (nb : Bool) (r : StoredRec),
      sess.currSeq ≠ st.nextSeq →
      ¬ sess.currSeq < st.firstSeq →
      st.arena sess.currIdx = Cell.wrapMark →
      st.arena 0 = Cell.stored r →
      ¬ (renderLine L env sess.simpleFormat r).1 > count →
      secure_log_read L env st sess count nb
        = some (.line (renderLine L env sess.simpleFormat r).2,
            { sess with currSeq := sess.currSeq + 1, currIdx := 0 })) := by
  constructor
  · intro L process path action protocol family srcIp srcPort dstIp dstPort st
      h1 h2 h4
    have hle : (netRecOf L process path action protocol family srcIp srcPort
        dstIp dstPort).len
        ≤ alignSize L.logAlign
          (netRecOf L process path action protocol family srcIp srcPort
            dstIp dstPort).len := Nat.le_add_right _ _
    have hnz : (0 : Nat) < st.nextIdx := lt_of_le_of_lt (Nat.zero_le _) h2
    have hout : ¬ (0 < st.nextIdx
        ∧ st.nextIdx < 0 + (netRecOf L process path action protocol family
            srcIp srcPort dstIp dstPort).len) := by
      omega
    refine ⟨?_, rfl, rfl, ?_, ?_, ?_⟩
    · unfold store_netlog_record
      show Option.map
          (commitRecord (netRecOf L process path action protocol family srcIp
            srcPort dstIp dstPort))
          (find_new_record_place L
            (netRecOf L process path action protocol family srcIp srcPort
              dstIp dstPort).len st) = _
      rw [find_place_wrap L _ st h1 h2 h4]
      rfl
    · show writeRec (writeWrap st.arena st.nextIdx) 0 _ st.nextIdx = Cell.wrapMark
      unfold writeRec writeWrap
      rw [if_neg (Nat.ne_of_gt hnz), if_neg hout, if_pos rfl]
    · show lenAt (writeRec (writeWrap st.arena st.nextIdx) 0 _) st.nextIdx = some 0
      unfold lenAt
      show (match writeRec (writeWrap st.arena st.nextIdx) 0 _ st.nextIdx with
        | Cell.stored r => some r.len
        | Cell.wrapMark => some 0
        | Cell.junk => none) = some 0
      rw [show writeRec (writeWrap st.arena st.nextIdx) 0
          (netRecOf L process path action protocol family srcIp srcPort
            dstIp dstPort) st.nextIdx = Cell.wrapMark from ?_]
      · unfold writeRec writeWrap
        rw [if_neg (Nat.ne_of_gt hnz), if_neg hout, if_pos rfl]
    · show writeRec (writeWrap st.arena st.nextIdx) 0 _ 0 = _
      unfold writeRec
      rw [if_pos rfl]
  · intro L env st sess count nb r h1 h2 h3 h4 h5
    rw [read_over_marker L env st sess count nb r h1 h2 h3 h4, if_neg h5]

/-- Witness for `wraparound_no_evict_and_reader_crosses`: the append part at
a state whose write offset 900 is 152 needed bytes short of the 1024-byte
arena end while offset 200 is free, and the reader part on the resulting
marker. -/
theorem wraparound_witness :
    ((alignSize exL.logAlign r97.len + exL.szSec < 200 ∧ (200 : Nat) < 900
        ∧ exL.bufLen ≤ 900 + (alignSize exL.logAlign r97.len + exL.szSec))
      ∧ store_netlog_record exL 0 [97] 0 0 2 none 0 none 0
          ⟨5, 200, 9, 900, junkArena⟩
        = some (commitRecord r97
            { (⟨5, 200, 9, 900, junkArena⟩ : LogState) with
              arena := writeWrap junkArena 900, nextIdx := 0 }))
    ∧ ((9 : Nat) ≠ 10 ∧ ¬ (9 : Nat) < 5
      ∧ (⟨5, 200, 10, 106, writeRec (writeWrap junkArena 900) 0 r97⟩ :
          LogState).arena 900 = Cell.wrapMark
      ∧ (⟨5, 200, 10, 106, writeRec (writeWrap junkArena 900) 0 r97⟩ :
          LogState).arena 0 = Cell.stored r97
      ∧ ¬ (renderLine exL envT false r97).1 > 100
      ∧ secure_log_read exL envT
          ⟨5, 200, 10, 106, writeRec (writeWrap junkArena 900) 0 r97⟩
          ⟨9, 900, false, false⟩ 100 false
        = some (.line (renderLine exL envT false r97).2,
            ⟨10, 0, false, false⟩)) :=
  ⟨⟨⟨by decide, by decide, by decide⟩,
      (wraparound_no_evict_and_reader_crosses.1 exL 0 [97] 0 0 2 none 0 none 0
        ⟨5, 200, 9, 900, junkArena⟩ (by decide) (by decide) (by decide)).1⟩,
    ⟨by decide, by decide, by decide, by decide, by decide,
      wraparound_no_evict_and_reader_crosses.2 exL envT
        ⟨5, 200, 10, 106, writeRec (writeWrap junkArena 900) 0 r97⟩
        ⟨9, 900, false, false⟩ 100 false r97
        (by decide) (by decide) (by decide) (by decide) (by decide)⟩⟩


/-! ## C1 & C6 — probe lifecycle manager -/

theorem testMask_new (probe loaded i : Nat) :
    testMask ((probe ^^^ loaded) &&& probe) i
      = (probe.testBit i && !loaded.testBit i) := by
  rw [testMask_eq, Nat.testBit_land, Nat.testBit_xor]
  cases hp : probe.testBit i <;> cases hl : loaded.testBit i <;> rfl

theorem condApply_loaded (b : Bool) (f : ProbeState → ProbeState)
    (s : ProbeState) (hf : ∀ x, (f x).loaded = x.loaded) :
    (condApply b f s).loaded = s.loaded := by
  cases b with
  | false => rfl
  | true => exact hf s

theorem condApply_planted (b : Bool) (f : ProbeState → ProbeState)
    (s : ProbeState) (h : Hook) (hf : ∀ x, (f x).planted h = x.planted h) :
    (condApply b f s).planted h = s.planted h := by
  cases b with
  | false => rfl
  | true => exact hf s

/-- After `unplant_probe` the active bitmask has exactly the requested
categories cleared (`loaded_probes ^= loaded_probes & probe`). -/
theorem unplant_probe_loaded (probe : Nat) (st : ProbeState) :
    (unplant_probe probe st).loaded
      = st.loaded ^^^ (st.loaded &&& probe) := by
  simp only [unplant_probe, unplant_probe_locked]
  rw [condApply_loaded _ unplant_udp_bind _ (fun x => rfl),
    condApply_loaded _ unplant_udp_connect _ (fun x => rfl),
    condApply_loaded _
      (fun s => condApply (s.loaded &&& closeMask == 0) unplant_close s) _
      (fun x => condApply_loaded _ unplant_close _ (fun y => rfl)),
    condApply_loaded _ unplant_tcp_accept _ (fun x => rfl),
    condApply_loaded _ unplant_tcp_connect _ (fun x => rfl)]

/-- The shared close jprobe survives `unplant_probe` whenever a close
category remains active afterwards. -/
theorem unplant_probe_keeps_close (probe : Nat) (st : ProbeState)
    (hp : st.planted Hook.closeJ = true)
    (hc : (st.loaded ^^^ (st.loaded &&& probe)) &&& closeMask ≠ 0) :
    (unplant_probe probe st).planted Hook.closeJ = true := by
  simp only [unplant_probe, unplant_probe_locked]
  rw [condApply_planted _ unplant_udp_bind _ Hook.closeJ (fun x => rfl),
    condApply_planted _ unplant_udp_connect _ Hook.closeJ (fun x => rfl)]
  have hp3 : (condApply (testMask (st.loaded &&& probe) PROBE_TCP_ACCEPT)
      unplant_tcp_accept
      (condApply (testMask (st.loaded &&& probe) PROBE_TCP_CONNECT)
        unplant_tcp_connect
        { st with loaded := st.loaded ^^^ (st.loaded &&& probe) })).planted
      Hook.closeJ = true := by
    rw [condApply_planted _ unplant_tcp_accept _ Hook.closeJ (fun x => rfl),
      condApply_planted _ unplant_tcp_connect _ Hook.closeJ (fun x => rfl)]
    exact hp
  have hload : (condApply (testMask (st.loaded &&& probe) PROBE_TCP_ACCEPT)
      unplant_tcp_accept
      (condApply (testMask (st.loaded &&& probe) PROBE_TCP_CONNECT)
        unplant_tcp_connect
        { st with loaded := st.loaded ^^^ (st.loaded &&& probe) })).loaded
      = st.loaded ^^^ (st.loaded &&& probe) := by
    rw [condApply_loaded _ unplant_tcp_accept _ (fun x => rfl),
      condApply_loaded _ unplant_tcp_connect _ (fun x => rfl)]
  cases hb : ((st.loaded &&& probe) &&& closeMask != 0) with
  | false => exact hp3
  | true =>
    have hc4 : ((condApply (testMask (st.loaded &&& probe) PROBE_TCP_ACCEPT)
        unplant_tcp_accept
        (condApply (testMask (st.loaded &&& probe) PROBE_TCP_CONNECT)
          unplant_tcp_connect
          { st with loaded := st.loaded ^^^ (st.loaded &&& probe) })).loaded
        &&& closeMask == 0) = false := by
      rw [hload]
      exact beq_eq_false_iff_ne.mpr hc
    show (condApply ((condApply (testMask (st.loaded &&& probe)
        PROBE_TCP_ACCEPT) unplant_tcp_accept
        (condApply (testMask (st.loaded &&& probe) PROBE_TCP_CONNECT)
          unplant_tcp_connect
          { st with loaded := st.loaded ^^^ (st.loaded &&& probe) })).loaded
        &&& closeMask == 0) unplant_close
      (condApply (testMask (st.loaded &&& probe) PROBE_TCP_ACCEPT)
        unplant_tcp_accept
        (condApply (testMask (st.loaded &&& probe) PROBE_TCP_CONNECT)
          unplant_tcp_connect
          { st with loaded := st.loaded ^^^ (st.loaded &&& probe) }))).planted
      Hook.closeJ = true
    rw [hc4]
    exact hp3


/-- A hook environment where every registration succeeds. -/
def envAll : HookEnv := fun _ => true

/-- A hook environment where only the accept kretprobe registration fails. -/
def envNoAccept : HookEnv := fun h => decide (h ≠ Hook.acceptK)

/-- A hook environment where only the stream-connect jprobe registration
succeeds. -/
def envOnlyStreamJ : HookEnv := fun h => decide (h = Hook.streamConnJ)

/-- C1 claims that after a planting failure every hook planted during the
same composite request is rolled back and the bitmask is exactly as before.
In the source, when `register_kretprobe` for the accept category fails after
the TCP-connect category was planted, `plant_probe` returns the error with
the TCP-connect category still planted and still set in `loaded_probes`. -/
theorem plant_probe_no_full_rollback :
    (plant_probe envNoAccept (pbit PROBE_TCP_CONNECT ||| pbit PROBE_TCP_ACCEPT)
        probeSt0).1 = some PlantErr.acceptFailed
      ∧ (plant_probe envNoAccept
          (pbit PROBE_TCP_CONNECT ||| pbit PROBE_TCP_ACCEPT)
          probeSt0).2.loaded ≠ probeSt0.loaded
      ∧ (plant_probe envNoAccept
          (pbit PROBE_TCP_CONNECT ||| pbit PROBE_TCP_ACCEPT)
          probeSt0).2.planted Hook.streamConnJ = true
      ∧ (plant_probe envNoAccept
          (pbit PROBE_TCP_CONNECT ||| pbit PROBE_TCP_ACCEPT)
          probeSt0).2.planted Hook.streamConnK = true := by
  refine ⟨by decide, by decide, by decide, by decide⟩

/-- C1 amended: on a planting failure `plant_probe` returns the error
identifying the failed category and does not mark that category active, and
the failing category s own partially planted hook pair is rolled back (the
jprobe is unregistered when its kretprobe registration fails, leaving state
untouched); but hooks and categories planted earlier in the same composite
request are kept: they stay planted and stay set in the bitmask. -/
theorem plant_probe_per_category_rollback :
    (∀ (env : HookEnv) (st : ProbeState),
      env Hook.streamConnJ = true → env Hook.streamConnK = false →
      st.loaded.testBit PROBE_TCP_CONNECT = false →
      (plant_probe env (pbit PROBE_TCP_CONNECT) st).1
          = some PlantErr.connectFailed
        ∧ (plant_probe env (pbit PROBE_TCP_CONNECT) st).2.loaded = st.loaded
        ∧ ∀ h, (plant_probe env (pbit PROBE_TCP_CONNECT) st).2.planted h
            = if h = Hook.streamConnJ then false else st.planted h)
    ∧ (∀ env : HookEnv,
      env Hook.streamConnJ = true → env Hook.streamConnK = true →
      env Hook.acceptK = false →
      (plant_probe env (pbit PROBE_TCP_CONNECT ||| pbit PROBE_TCP_ACCEPT)
          probeSt0).1 = some PlantErr.acceptFailed
        ∧ (plant_probe env (pbit PROBE_TCP_CONNECT ||| pbit PROBE_TCP_ACCEPT)
            probeSt0).2.loaded = pbit PROBE_TCP_CONNECT
        ∧ (plant_probe env (pbit PROBE_TCP_CONNECT ||| pbit PROBE_TCP_ACCEPT)
            probeSt0).2.planted Hook.streamConnJ = true
        ∧ (plant_probe env (pbit PROBE_TCP_CONNECT ||| pbit PROBE_TCP_ACCEPT)
            probeSt0).2.planted Hook.streamConnK = true
        ∧ (plant_probe env (pbit PROBE_TCP_CONNECT ||| pbit PROBE_TCP_ACCEPT)
            probeSt0).2.planted Hook.acceptK = false) := by
  constructor
  · intro env st h1 h2 h3
    have h3n : st.loaded.testBit 0 = false := h3
    have c0 : testMask ((pbit 0 ^^^ st.loaded) &&& pbit 0) 0 = true := by
      rw [testMask_new, pbit_testBit]
      simp [h3n]
    have cne : ∀ i, i ≠ 0 →
        testMask ((pbit 0 ^^^ st.loaded) &&& pbit 0) i = false := by
      intro i hi
      rw [testMask_new, pbit_testBit]
      simp [Ne.symm hi]
    have heval : plant_probe env (pbit PROBE_TCP_CONNECT) st
        = (some PlantErr.connectFailed,
            unregisterHook .streamConnJ
              { st with planted := fun hk =>
                  if hk = Hook.streamConnJ then true else st.planted hk }) := by
      unfold plant_probe
      simp only [PROBE_TCP_CONNECT, PROBE_TCP_ACCEPT, PROBE_TCP_CLOSE,
        PROBE_UDP_CONNECT, PROBE_UDP_BIND, PROBE_UDP_CLOSE]
      simp only [c0, cne 1 (by decide), cne 2 (by decide), cne 3 (by decide),
        cne 4 (by decide), cne 5 (by decide)]
      simp only [plantStep, plant_tcp_connect, registerHook, h1, h2]
      simp [unregisterHook, plantCloseStep, bind, Except.bind]
    refine ⟨by rw [heval], by rw [heval]; rfl, ?_⟩
    intro h
    rw [heval]
    by_cases hh : h = Hook.streamConnJ
    · subst hh
      simp [unregisterHook]
    · simp [unregisterHook, hh]
  · intro env h1 h2 h3
    have d0 : testMask (((pbit PROBE_TCP_CONNECT ||| pbit PROBE_TCP_ACCEPT) ^^^
        probeSt0.loaded) &&& (pbit PROBE_TCP_CONNECT ||| pbit PROBE_TCP_ACCEPT))
        PROBE_TCP_CONNECT = true := by decide
    have d1 : testMask (((pbit PROBE_TCP_CONNECT ||| pbit PROBE_TCP_ACCEPT) ^^^
        probeSt0.loaded) &&& (pbit PROBE_TCP_CONNECT ||| pbit PROBE_TCP_ACCEPT))
        PROBE_TCP_ACCEPT = true := by decide
    have heval : plant_probe env
        (pbit PROBE_TCP_CONNECT ||| pbit PROBE_TCP_ACCEPT) probeSt0
        = (some PlantErr.acceptFailed,
            { loaded := pbit PROBE_TCP_CONNECT,
              planted := fun hk =>
                if hk = Hook.streamConnK then true
                else if hk = Hook.streamConnJ then true else false }) := by
      unfold plant_probe
      simp only [d0, d1]
      simp only [plantStep, plant_tcp_connect, plant_tcp_accept, registerHook,
        h1, h2, h3, probeSt0]
      simp [bind, Except.bind, plantCloseStep, pbit, PROBE_TCP_CONNECT]
    refine ⟨by rw [heval], by rw [heval], by rw [heval]; rfl,
      by rw [heval]; rfl, by rw [heval]; rfl⟩

/-- Witness for `plant_probe_per_category_rollback`, first part, at the
environment where only the stream-connect jprobe registers. -/
theorem plant_probe_per_category_rollback_witness :
    (envOnlyStreamJ Hook.streamConnJ = true
      ∧ envOnlyStreamJ Hook.streamConnK = false
      ∧ probeSt0.loaded.testBit PROBE_TCP_CONNECT = false)
    ∧ ((plant_probe envOnlyStreamJ (pbit PROBE_TCP_CONNECT) probeSt0).1
          = some PlantErr.connectFailed
      ∧ (plant_probe envOnlyStreamJ (pbit PROBE_TCP_CONNECT)
          probeSt0).2.loaded = probeSt0.loaded
      ∧ ∀ h, (plant_probe envOnlyStreamJ (pbit PROBE_TCP_CONNECT)
          probeSt0).2.planted h
            = if h = Hook.streamConnJ then false else probeSt0.planted h) :=
  ⟨⟨by decide, by decide, by decide⟩,
    plant_probe_per_category_rollback.1 envOnlyStreamJ probeSt0
      (by decide) (by decide) (by decide)⟩

/-- C6: `release` clears exactly the requested categories from the active
bitmask; a hook shared by several categories is unplanted only when no
remaining active category still needs it; and concretely, after
`request({TCP_CLOSE, UDP_CLOSE})`, `release({TCP_CLOSE})` leaves the shared
close jprobe planted and only the subsequent `release({UDP_CLOSE})` unplants
it. -/
theorem release_clears_and_keeps_shared_close :
    (∀ (probe : Nat) (st : ProbeState) (i : Nat),
      Nat.testBit ((unplant_probe probe st).loaded) i
        = (Nat.testBit st.loaded i && !Nat.testBit probe i))
    ∧ (∀ (probe : Nat) (st : ProbeState),
      st.planted Hook.closeJ = true →
      (unplant_probe probe st).loaded &&& closeMask ≠ 0 →
      (unplant_probe probe st).planted Hook.closeJ = true)
    ∧ ((plant_probe envAll (pbit PROBE_TCP_CLOSE ||| pbit PROBE_UDP_CLOSE)
          probeSt0).1 = none
      ∧ (plant_probe envAll (pbit PROBE_TCP_CLOSE ||| pbit PROBE_UDP_CLOSE)
          probeSt0).2.planted Hook.closeJ = true
      ∧ (unplant_probe (pbit PROBE_TCP_CLOSE)
          (plant_probe envAll (pbit PROBE_TCP_CLOSE ||| pbit PROBE_UDP_CLOSE)
            probeSt0).2).planted Hook.closeJ = true
      ∧ testMask (unplant_probe (pbit PROBE_TCP_CLOSE)
          (plant_probe envAll (pbit PROBE_TCP_CLOSE ||| pbit PROBE_UDP_CLOSE)
            probeSt0).2).loaded PROBE_TCP_CLOSE = false
      ∧ testMask (unplant_probe (pbit PROBE_TCP_CLOSE)
          (plant_probe envAll (pbit PROBE_TCP_CLOSE ||| pbit PROBE_UDP_CLOSE)
            probeSt0).2).loaded PROBE_UDP_CLOSE = true
      ∧ (unplant_probe (pbit PROBE_UDP_CLOSE)
          (unplant_probe (pbit PROBE_TCP_CLOSE)
            (plant_probe envAll
              (pbit PROBE_TCP_CLOSE ||| pbit PROBE_UDP_CLOSE)
              probeSt0).2)).planted Hook.closeJ = false
      ∧ (unplant_probe (pbit PROBE_UDP_CLOSE)
          (unplant_probe (pbit PROBE_TCP_CLOSE)
            (plant_probe envAll
              (pbit PROBE_TCP_CLOSE ||| pbit PROBE_UDP_CLOSE)
              probeSt0).2)).loaded = 0) := by
  refine ⟨?_, ?_, by decide, by decide, by decide, by decide, by decide,
    by decide, by decide⟩
  · intro probe st i
    rw [unplant_probe_loaded, Nat.testBit_xor, Nat.testBit_land]
    cases ha : st.loaded.testBit i <;> cases hb : probe.testBit i <;> rfl
  · intro probe st hp hc
    rw [unplant_probe_loaded] at hc
    exact unplant_probe_keeps_close probe st hp hc

/-- Witness for `release_clears_and_keeps_shared_close`: the shared-hook
retention part applied at a state with both close categories active. -/
theorem release_clears_witness :
    ((⟨36, fun _ => true⟩ : ProbeState).planted Hook.closeJ = true
      ∧ (unplant_probe (pbit PROBE_TCP_CLOSE)
          ⟨36, fun _ => true⟩).loaded &&& closeMask ≠ 0)
    ∧ (unplant_probe (pbit PROBE_TCP_CLOSE)
        ⟨36, fun _ => true⟩).planted Hook.closeJ = true :=
  ⟨⟨by decide, by decide⟩,
    release_clears_and_keeps_shared_close.2.1 (pbit PROBE_TCP_CLOSE)
      ⟨36, fun _ => true⟩ (by decide) (by decide)⟩


/-! ## C8 — path truncation -/

/-- Evaluation of `netlog_print` on an uncorrupted record when nothing
overflows the user buffer. -/
theorem netlog_print_eval (L : Layout) (env : RenderEnv) (f : NetFields)
    (recLen len1 : Nat) (pn : List Nat)
    (hbig : ¬ recLen < L.szNet)
    (hpn : env.printNetlog f.protocol f.family f.action f.src f.src_port
      f.dst f.dst_port = some pn)
    (hb1 : (printPrec f.path_len f.path ++ [32]).length < L.usrBuf - len1)
    (hb2 : pn.length
      < L.usrBuf - len1 - (printPrec f.path_len f.path ++ [32]).length) :
    netlog_print L env f recLen len1
      = some (len1 + (printPrec f.path_len f.path ++ [32]).length + pn.length,
          (printPrec f.path_len f.path ++ [32]) ++ pn) := by
  simp only [netlog_print]
  rw [if_neg hbig, if_neg (Nat.not_le.mpr hb1), hpn]
  exact if_neg (Nat.not_le.mpr hb2)

/-- Evaluation of `renderLine` on a network record under the same
no-overflow conditions: the delivered line is the header, the identity text,
the `%.*s`-printed path, the `print_netlog` payload and the newline. -/
theorem renderLine_net_eval (L : Layout) (env : RenderEnv) (fmt : Bool)
    (r : StoredRec) (f : NetFields) (pn : List Nat)
    (hbody : r.body = RecBody.net f)
    (hbig : ¬ r.len < L.szNet)
    (hpn : env.printNetlog f.protocol f.family f.action f.src f.src_port
      f.dst f.dst_port = some pn)
    (hb1 : (printPrec f.path_len f.path ++ [32]).length
      < L.usrBuf - ((env.header fmt r).length
          + (env.identity r.process ++ [32]).length))
    (hb2 : pn.length
      < L.usrBuf - ((env.header fmt r).length
          + (env.identity r.process ++ [32]).length)
        - (printPrec f.path_len f.path ++ [32]).length) :
    renderLine L env fmt r
      = ((env.header fmt r).length + (env.identity r.process ++ [32]).length
            + (printPrec f.path_len f.path ++ [32]).length + pn.length + 1,
          env.header fmt r ++ (env.identity r.process ++ [32])
            ++ ((printPrec f.path_len f.path ++ [32]) ++ pn) ++ [10]) := by
  have hnp := netlog_print_eval L env f r.len
    ((env.header fmt r).length + (env.identity r.process ++ [32]).length)
    pn hbig hpn hb1 hb2
  simp only [renderLine, hbody, hnp]


/-- C8: a path whose length including the terminating NUL exceeds
`LOG_BUF_LEN >> 4` is stored silently and successfully with the capped value
in the record's `path_len` field and only the first `path_len` bytes of the
string; the line a subsequent `read` renders carries exactly those capped
bytes (`%.*s` with precision `path_len`) in its path position — and whenever
the cap cuts actual characters, that differs from the original path. -/
theorem store_truncates_long_path (L : Layout) (env : RenderEnv)
    (process : Nat) (path : List Nat) (action protocol family : Nat)
    (srcIp : Option (List Nat)) (srcPort : Int)
    (dstIp : Option (List Nat)) (dstPort : Int)
    (fmt eofB nb : Bool) (count : Nat) (pn : List Nat)
    (hszN : 0 < L.szNet)
    (hcap : path.length + 1 > L.bufLen >>> 4)
    (hcapI : L.bufLen >>> 4 ≤ INT_MAX)
    (hnz : ∀ b ∈ path, b ≠ 0)
    (hnw : alignSize L.logAlign (L.szNet + L.bufLen >>> 4) + L.szSec < L.bufLen)
    (hpn : env.printNetlog protocol family action (storeAddr srcIp family)
      srcPort (storeAddr dstIp family) dstPort = some pn)
    (hb1 : (path.take (L.bufLen >>> 4) ++ [32]).length
      < L.usrBuf - ((env.header fmt (netRecOf L process path action protocol
          family srcIp srcPort dstIp dstPort)).length
        + (env.identity process ++ [32]).length))
    (hb2 : pn.length
      < L.usrBuf - ((env.header fmt (netRecOf L process path action protocol
          family srcIp srcPort dstIp dstPort)).length
        + (env.identity process ++ [32]).length)
        - (path.take (L.bufLen >>> 4) ++ [32]).length)
    (hcount : (env.header fmt (netRecOf L process path action protocol family
        srcIp srcPort dstIp dstPort)).length
        + (env.identity process ++ [32]).length
        + (path.take (L.bufLen >>> 4) ++ [32]).length + pn.length + 1
      ≤ count) :
    netRecOf L process path action protocol family srcIp srcPort dstIp dstPort
      = { len := L.szNet + L.bufLen >>> 4, process := process,
          body := .net
            { path_len := L.bufLen >>> 4, protocol := protocol,
              action := action, family := family, src_port := srcPort,
              dst_port := dstPort, src := storeAddr srcIp family,
              dst := storeAddr dstIp family,
              path := path.take (L.bufLen >>> 4) } }
    ∧ store_netlog_record L process path action protocol family srcIp srcPort
        dstIp dstPort emptyState
      = some (commitRecord
          (netRecOf L process path action protocol family srcIp srcPort
            dstIp dstPort) emptyState)
    ∧ secure_log_read L env
        (commitRecord (netRecOf L process path action protocol family srcIp
          srcPort dstIp dstPort) emptyState)
        ⟨0, 0, fmt, eofB⟩ count nb
      = some (.line (env.header fmt (netRecOf L process path action protocol
            family srcIp srcPort dstIp dstPort)
          ++ (env.identity process ++ [32])
          ++ ((path.take (L.bufLen >>> 4) ++ [32]) ++ pn) ++ [10]),
          ⟨0 + 1, 0 + (L.szNet + L.bufLen >>> 4), fmt, eofB⟩)
    ∧ (L.bufLen >>> 4 < path.length → path.take (L.bufLen >>> 4) ≠ path) := by
  have hle : L.bufLen >>> 4 ≤ path.length := by omega
  have hrec : netRecOf L process path action protocol family srcIp srcPort
      dstIp dstPort
      = { len := L.szNet + L.bufLen >>> 4, process := process,
          body := .net
            { path_len := L.bufLen >>> 4, protocol := protocol,
              action := action, family := family, src_port := srcPort,
              dst_port := dstPort, src := storeAddr srcIp family,
              dst := storeAddr dstIp family,
              path := path.take (L.bufLen >>> 4) } } := by
    simp only [netRecOf]
    rw [if_pos (Or.inl hcap), Nat.min_eq_left hcapI,
      List.take_append_of_le_length hle]
  have hpp : printPrec (L.bufLen >>> 4) (path.take (L.bufLen >>> 4))
      = path.take (L.bufLen >>> 4) := by
    unfold printPrec
    rw [List.take_take, Nat.min_self]
    exact List.takeWhile_eq_self_iff.mpr
      (fun x hx => decide_eq_true (hnz x (List.take_subset _ _ hx)))
  refine ⟨hrec, ?_, ?_, ?_⟩
  · unfold store_netlog_record
    show Option.map
        (commitRecord (netRecOf L process path action protocol family srcIp
          srcPort dstIp dstPort))
        (find_new_record_place L
          (netRecOf L process path action protocol family srcIp srcPort
            dstIp dstPort).len emptyState) = _
    have hfind : find_new_record_place L
        (netRecOf L process path action protocol family srcIp srcPort
          dstIp dstPort).len emptyState = some emptyState := by
      rw [hrec]
      unfold find_new_record_place
      show (if emptyState.nextIdx
            + alignSize L.logAlign (L.szNet + L.bufLen >>> 4) + L.szSec
          ≥ L.bufLen then
          some { emptyState with
            arena := writeWrap emptyState.arena emptyState.nextIdx,
            nextIdx := 0 }
        else some emptyState) = some emptyState
      rw [if_neg (by
        show ¬ emptyState.nextIdx
            + alignSize L.logAlign (L.szNet + L.bufLen >>> 4) + L.szSec
          ≥ L.bufLen
        show ¬ 0 + alignSize L.logAlign (L.szNet + L.bufLen >>> 4) + L.szSec
          ≥ L.bufLen
        omega)]
    rw [hfind]
    rfl
  · have hlen0 : (netRecOf L process path action protocol family srcIp srcPort
        dstIp dstPort).len ≠ 0 := by
      rw [hrec]
      show L.szNet + L.bufLen >>> 4 ≠ 0
      omega
    have harena : (commitRecord (netRecOf L process path action protocol
        family srcIp srcPort dstIp dstPort) emptyState).arena 0
        = Cell.stored (netRecOf L process path action protocol family srcIp
          srcPort dstIp dstPort) := rfl
    rw [read_delivers L env
      (commitRecord (netRecOf L process path action protocol family srcIp
        srcPort dstIp dstPort) emptyState)
      ⟨0, 0, fmt, eofB⟩ count nb
      (netRecOf L process path action protocol family srcIp srcPort dstIp
        dstPort)
      (by exact Nat.zero_ne_one) (by exact Nat.lt_irrefl 0)
      harena hlen0]
    have hren := renderLine_net_eval L env fmt
      (netRecOf L process path action protocol family srcIp srcPort dstIp
        dstPort)
      { path_len := L.bufLen >>> 4, protocol := protocol, action := action,
        family := family, src_port := srcPort, dst_port := dstPort,
        src := storeAddr srcIp family, dst := storeAddr dstIp family,
        path := path.take (L.bufLen >>> 4) } pn
      (by rw [hrec])
      (by
        rw [hrec]
        show ¬ L.szNet + L.bufLen >>> 4 < L.szNet
        omega)
      hpn
      (by
        show (printPrec (L.bufLen >>> 4) (path.take (L.bufLen >>> 4))
            ++ [32]).length < _
        rw [hpp]
        exact hb1)
      (by
        show pn.length < _ - (printPrec (L.bufLen >>> 4)
            (path.take (L.bufLen >>> 4)) ++ [32]).length
        rw [hpp]
        exact hb2)
    rw [hpp] at hren
    rw [hren, if_neg (by
      show ¬ (env.header fmt (netRecOf L process path action protocol family
          srcIp srcPort dstIp dstPort)).length
          + (env.identity process ++ [32]).length
          + (path.take (L.bufLen >>> 4) ++ [32]).length + pn.length + 1
        > count
      omega)]
    show some (ReadRes.line _, _) = some (ReadRes.line _, _)
    rw [hrec]
  · intro hlt heq
    have hlen := congrArg List.length heq
    rw [List.length_take] at hlen
    omega


/-- A 70-character path (71 bytes with the NUL), above the 64-byte cap of
the example layout. -/
def c8path : List Nat := List.replicate 70 97

/-- Witness for `store_truncates_long_path` at the example layout, the
trivial rendering environment and a 70-character path. -/
theorem store_truncates_long_path_witness :
    (0 < exL.szNet
      ∧ c8path.length + 1 > exL.bufLen >>> 4
      ∧ exL.bufLen >>> 4 ≤ INT_MAX
      ∧ (∀ b ∈ c8path, b ≠ 0)
      ∧ alignSize exL.logAlign (exL.szNet + exL.bufLen >>> 4) + exL.szSec
          < exL.bufLen
      ∧ envT.printNetlog 1 2 1 (storeAddr none 2) 5 (storeAddr none 2) 6
          = some []
      ∧ (c8path.take (exL.bufLen >>> 4) ++ [32]).length
          < exL.usrBuf - ((envT.header false (netRecOf exL 0 c8path 1 1 2
              none 5 none 6)).length + (envT.identity 0 ++ [32]).length)
      ∧ ([] : List Nat).length
          < exL.usrBuf - ((envT.header false (netRecOf exL 0 c8path 1 1 2
              none 5 none 6)).length + (envT.identity 0 ++ [32]).length)
            - (c8path.take (exL.bufLen >>> 4) ++ [32]).length
      ∧ (envT.header false (netRecOf exL 0 c8path 1 1 2 none 5 none 6)).length
          + (envT.identity 0 ++ [32]).length
          + (c8path.take (exL.bufLen >>> 4) ++ [32]).length
          + ([] : List Nat).length + 1 ≤ 300)
    ∧ (netRecOf exL 0 c8path 1 1 2 none 5 none 6
        = { len := exL.szNet + exL.bufLen >>> 4, process := 0,
            body := .net
              { path_len := exL.bufLen >>> 4, protocol := 1, action := 1,
                family := 2, src_port := 5, dst_port := 6,
                src := storeAddr none 2, dst := storeAddr none 2,
                path := c8path.take (exL.bufLen >>> 4) } }
      ∧ store_netlog_record exL 0 c8path 1 1 2 none 5 none 6 emptyState
        = some (commitRecord (netRecOf exL 0 c8path 1 1 2 none 5 none 6)
            emptyState)
      ∧ secure_log_read exL envT
          (commitRecord (netRecOf exL 0 c8path 1 1 2 none 5 none 6)
            emptyState)
          ⟨0, 0, false, false⟩ 300 false
        = some (.line (envT.header false (netRecOf exL 0 c8path 1 1 2 none 5
              none 6)
            ++ (envT.identity 0 ++ [32])
            ++ ((c8path.take (exL.bufLen >>> 4) ++ [32]) ++ []) ++ [10]),
            ⟨0 + 1, 0 + (exL.szNet + exL.bufLen >>> 4), false, false⟩)
      ∧ (exL.bufLen >>> 4 < c8path.length
          → c8path.take (exL.bufLen >>> 4) ≠ c8path)) :=
  ⟨⟨by decide, by decide, by decide, by decide, by decide, by decide,
      by decide, by decide, by decide⟩,
    store_truncates_long_path exL envT 0 c8path 1 1 2 none 5 none 6
      false false false 300 []
      (by decide) (by decide) (by decide) (by decide) (by decide) (by decide)
      (by decide) (by decide) (by decide)⟩


/-! ## C3 — append order is reproduced by walking the buffer -/

theorem totalLen_append (recs : List StoredRec) (r : StoredRec) :
    totalLen (recs ++ [r]) = totalLen recs + r.len := by
  simp [totalLen]

theorem recOf_pos (L : Layout) (q : Req)
    (hszN : 0 < L.szNet) (hszE : 0 < L.szExec) : 0 < (recOf L q).len := by
  cases q with
  | net p path a pr f si sp di dp =>
    exact Nat.lt_of_lt_of_le hszN (Nat.le_add_right _ _)
  | exec p path argv =>
    exact Nat.lt_of_lt_of_le hszE
      (le_trans (Nat.le_add_right _ _) (Nat.le_add_right _ _))

theorem layoutArena_ge (r : StoredRec) (rs : List StoredRec) (base j : Nat)
    (hj : base + r.len ≤ j) (hr : 0 < r.len) :
    layoutArena (r :: rs) base j = layoutArena rs (base + r.len) j := by
  show (if j = base then Cell.stored r
    else if base < j ∧ j < base + r.len then Cell.junk
    else layoutArena rs (base + r.len) j) = layoutArena rs (base + r.len) j
  rw [if_neg (by omega), if_neg (by omega)]

theorem writeRec_congr_at (a a2 : Arena) (idx : Nat) (r : StoredRec)
    (j : Nat) (h : a j = a2 j) : writeRec a idx r j = writeRec a2 idx r j := by
  unfold writeRec
  by_cases h1 : j = idx
  · rw [if_pos h1, if_pos h1]
  · rw [if_neg h1, if_neg h1]
    by_cases h2 : idx < j ∧ j < idx + r.len
    · rw [if_pos h2, if_pos h2]
    · rw [if_neg h2, if_neg h2]
      exact h

theorem writeRec_layout (recs : List StoredRec) (b : Nat) (r : StoredRec)
    (hpos : ∀ x ∈ recs, 0 < x.len) :
    writeRec (layoutArena recs b) (b + totalLen recs) r
      = layoutArena (recs ++ [r]) b := by
  induction recs generalizing b with
  | nil =>
    funext j
    rfl
  | cons r0 rs ih =>
    funext j
    have hr0 : 0 < r0.len := hpos r0 (List.mem_cons_self _ _)
    have hT : totalLen (r0 :: rs) = r0.len + totalLen rs := by
      simp [totalLen]
    by_cases h1 : j = b
    · have hidx : j ≠ b + totalLen (r0 :: rs) := by omega
      have hrange : ¬ (b + totalLen (r0 :: rs) < j
          ∧ j < b + totalLen (r0 :: rs) + r.len) := by omega
      show (if j = b + totalLen (r0 :: rs) then Cell.stored r
        else if b + totalLen (r0 :: rs) < j
            ∧ j < b + totalLen (r0 :: rs) + r.len then Cell.junk
        else layoutArena (r0 :: rs) b j)
        = layoutArena ((r0 :: rs) ++ [r]) b j
      rw [if_neg hidx, if_neg hrange]
      show (if j = b then Cell.stored r0
        else if b < j ∧ j < b + r0.len then Cell.junk
        else layoutArena rs (b + r0.len) j)
        = (if j = b then Cell.stored r0
          else if b < j ∧ j < b + r0.len then Cell.junk
          else layoutArena (rs ++ [r]) (b + r0.len) j)
      rw [if_pos h1, if_pos h1]
    · by_cases h2 : b < j ∧ j < b + r0.len
      · have hidx : j ≠ b + totalLen (r0 :: rs) := by omega
        have hrange : ¬ (b + totalLen (r0 :: rs) < j
            ∧ j < b + totalLen (r0 :: rs) + r.len) := by omega
        show (if j = b + totalLen (r0 :: rs) then Cell.stored r
          else if b + totalLen (r0 :: rs) < j
              ∧ j < b + totalLen (r0 :: rs) + r.len then Cell.junk
          else layoutArena (r0 :: rs) b j)
          = layoutArena ((r0 :: rs) ++ [r]) b j
        rw [if_neg hidx, if_neg hrange]
        show (if j = b then Cell.stored r0
          else if b < j ∧ j < b + r0.len then Cell.junk
          else layoutArena rs (b + r0.len) j)
          = (if j = b then Cell.stored r0
            else if b < j ∧ j < b + r0.len then Cell.junk
            else layoutArena (rs ++ [r]) (b + r0.len) j)
        rw [if_neg h1, if_neg h1, if_pos h2, if_pos h2]
      · have hskip : layoutArena (r0 :: rs) b j
            = layoutArena rs (b + r0.len) j := by
          show (if j = b then Cell.stored r0
            else if b < j ∧ j < b + r0.len then Cell.junk
            else layoutArena rs (b + r0.len) j)
            = layoutArena rs (b + r0.len) j
          rw [if_neg h1, if_neg h2]
        have e1 : b + totalLen (r0 :: rs) = b + r0.len + totalLen rs := by
          omega
        have step1 : writeRec (layoutArena (r0 :: rs) b)
            (b + totalLen (r0 :: rs)) r j
            = writeRec (layoutArena rs (b + r0.len))
              (b + r0.len + totalLen rs) r j := by
          rw [e1]
          exact writeRec_congr_at _ _ _ _ _ hskip
        have step2 : writeRec (layoutArena rs (b + r0.len))
            (b + r0.len + totalLen rs) r j
            = layoutArena (rs ++ [r]) (b + r0.len) j := by
          rw [ih (b + r0.len) (fun x hx => hpos x (List.mem_cons_of_mem _ hx))]
        rw [step1, step2]
        symm
        show (if j = b then Cell.stored r0
          else if b < j ∧ j < b + r0.len then Cell.junk
          else layoutArena (rs ++ [r]) (b + r0.len) j)
          = layoutArena (rs ++ [r]) (b + r0.len) j
        rw [if_neg h1, if_neg h2]


/-- On a state laid out by eviction-free appends, `find_new_record_place`
leaves the state untouched while the total never approaches capacity. -/
theorem find_place_good (L : Layout) (size : Nat) (recs : List StoredRec)
    (hpos : ∀ x ∈ recs, 0 < x.len)
    (hfit : totalLen recs + (alignSize L.logAlign size + L.szSec) < L.bufLen) :
    find_new_record_place L size (goodState recs) = some (goodState recs) := by
  have hev : evictLoop L (alignSize L.logAlign size + L.szSec)
      ((goodState recs).nextSeq - (goodState recs).firstSeq)
      (goodState recs) = some (goodState recs) := by
    cases recs with
    | nil => rfl
    | cons r0 rs =>
      have hr0 : 0 < r0.len := hpos r0 (List.mem_cons_self _ _)
      have hpos2 : 0 < totalLen (r0 :: rs) := by
        have hT : totalLen (r0 :: rs) = r0.len + totalLen rs := by
          simp [totalLen]
        omega
      show evictLoop L (alignSize L.logAlign size + L.szSec)
        ((r0 :: rs).length - 0) (goodState (r0 :: rs))
        = some (goodState (r0 :: rs))
      have hfuel : (r0 :: rs).length - 0 = rs.length + 1 := by simp
      rw [hfuel]
      unfold evictLoop
      rw [if_pos (show (goodState (r0 :: rs)).firstSeq
          < (goodState (r0 :: rs)).nextSeq from Nat.succ_pos _)]
      have hfree : (if (goodState (r0 :: rs)).nextIdx
            > (goodState (r0 :: rs)).firstIdx then
          max (L.bufLen - (goodState (r0 :: rs)).nextIdx)
            (goodState (r0 :: rs)).firstIdx
          else (goodState (r0 :: rs)).firstIdx
            - (goodState (r0 :: rs)).nextIdx)
          > alignSize L.logAlign size + L.szSec := by
        rw [if_pos (show (goodState (r0 :: rs)).nextIdx
            > (goodState (r0 :: rs)).firstIdx from hpos2)]
        show max (L.bufLen - totalLen (r0 :: rs)) 0
          > alignSize L.logAlign size + L.szSec
        rw [Nat.max_zero]
        omega
      simp only [hfree, if_pos]
  unfold find_new_record_place
  rw [hev]
  show (if (goodState recs).nextIdx + alignSize L.logAlign size + L.szSec
      ≥ L.bufLen then
      some { goodState recs with
        arena := writeWrap (goodState recs).arena (goodState recs).nextIdx,
        nextIdx := 0 }
    else some (goodState recs)) = some (goodState recs)
  rw [if_neg (by
    show ¬ totalLen recs + alignSize L.logAlign size + L.szSec ≥ L.bufLen
    omega)]

/-- One eviction-free append on a laid-out state extends the layout by the
request's record. -/
theorem append_good (L : Layout) (q : Req) (recs : List StoredRec)
    (hpos : ∀ x ∈ recs, 0 < x.len)
    (hfit : totalLen recs
      + (alignSize L.logAlign (recOf L q).len + L.szSec) < L.bufLen) :
    applyReq L q (goodState recs)
      = some (goodState (recs ++ [recOf L q])) := by
  have harena : writeRec (layoutArena recs 0) (totalLen recs) (recOf L q)
      = layoutArena (recs ++ [recOf L q]) 0 := by
    have := writeRec_layout recs 0 (recOf L q) hpos
    rwa [Nat.zero_add] at this
  have hnext : totalLen recs + (recOf L q).len
      = totalLen (recs ++ [recOf L q]) := by
    simp [totalLen]
  have hcnt : recs.length + 1 = (recs ++ [recOf L q]).length := by simp
  have hcommit : commitRecord (recOf L q) (goodState recs)
      = goodState (recs ++ [recOf L q]) := by
    unfold commitRecord goodState
    show (⟨0, 0, recs.length + 1, totalLen recs + (recOf L q).len,
        writeRec (layoutArena recs 0) (totalLen recs) (recOf L q)⟩ : LogState)
      = ⟨0, 0, (recs ++ [recOf L q]).length, totalLen (recs ++ [recOf L q]),
        layoutArena (recs ++ [recOf L q]) 0⟩
    rw [harena, hnext, hcnt]
  cases q with
  | net p path a pr f si sp di dp =>
    show (find_new_record_place L
        (netRecOf L p path a pr f si sp di dp).len
        (goodState recs)).map
      (commitRecord (netRecOf L p path a pr f si sp di dp))
      = some (goodState (recs ++ [recOf L (Req.net p path a pr f si sp di dp)]))
    rw [find_place_good L (netRecOf L p path a pr f si sp di dp).len recs
      hpos (by exact hfit)]
    exact congrArg some hcommit
  | exec p path argv =>
    show (find_new_record_place L (execRecOf L p path argv).len
        (goodState recs)).map (commitRecord (execRecOf L p path argv))
      = some (goodState (recs ++ [recOf L (Req.exec p path argv)]))
    rw [find_place_good L (execRecOf L p path argv).len recs hpos
      (by exact hfit)]
    exact congrArg some hcommit


/-- Replaying requests over a laid-out state extends the layout in order
while the cumulative aligned sizes stay below capacity. -/
theorem runReqs_good (L : Layout) (qs : List Req) (recs : List StoredRec)
    (hszN : 0 < L.szNet) (hszE : 0 < L.szExec)
    (hpos : ∀ x ∈ recs, 0 < x.len)
    (hfit : totalLen recs + sumAligned L qs + L.szSec < L.bufLen) :
    runReqs L qs (goodState recs)
      = some (goodState (recs ++ qs.map (recOf L))) := by
  induction qs generalizing recs with
  | nil =>
    show some (goodState recs) = some (goodState (recs ++ []))
    rw [List.append_nil]
  | cons q qs ih =>
    have hsum : sumAligned L (q :: qs)
        = alignSize L.logAlign (recOf L q).len + sumAligned L qs := by
      simp [sumAligned]
    have hstep : applyReq L q (goodState recs)
        = some (goodState (recs ++ [recOf L q])) := by
      refine append_good L q recs hpos ?_
      omega
    show (match applyReq L q (goodState recs) with
      | none => none
      | some st1 => runReqs L qs st1)
      = some (goodState (recs ++ (q :: qs).map (recOf L)))
    rw [hstep]
    show runReqs L qs (goodState (recs ++ [recOf L q]))
      = some (goodState (recs ++ (q :: qs).map (recOf L)))
    have hpos2 : ∀ x ∈ recs ++ [recOf L q], 0 < x.len := by
      intro x hx
      rcases List.mem_append.mp hx with hx1 | hx2
      · exact hpos x hx1
      · rw [List.mem_singleton.mp hx2]
        exact recOf_pos L q hszN hszE
    have hfit2 : totalLen (recs ++ [recOf L q]) + sumAligned L qs + L.szSec
        < L.bufLen := by
      rw [totalLen_append]
      have hle : (recOf L q).len ≤ alignSize L.logAlign (recOf L q).len :=
        Nat.le_add_right _ _
      omega
    have := ih (recs ++ [recOf L q]) hpos2 hfit2
    rw [this, List.append_assoc]
    rfl

/-- Walking an arena that agrees with a record layout beyond `base` with
`next_record` returns exactly the laid-out records. -/
theorem walk_layout (recs : List StoredRec) (base : Nat) (a : Arena)
    (hpos : ∀ x ∈ recs, 0 < x.len)
    (ha : ∀ j, base ≤ j → a j = layoutArena recs base j) :
    walk a base recs.length = some recs := by
  induction recs generalizing base with
  | nil => rfl
  | cons r rs ih =>
    have hr : 0 < r.len := hpos r (List.mem_cons_self _ _)
    have hstored : a base = Cell.stored r := by
      rw [ha base (Nat.le_refl base)]
      show (if base = base then Cell.stored r
        else if base < base ∧ base < base + r.len then Cell.junk
        else layoutArena rs (base + r.len) base) = Cell.stored r
      rw [if_pos rfl]
    have hnext : next_record a base = some (base + r.len) :=
      next_record_stored a base r hstored (Nat.ne_of_gt hr)
    have hrest : walk a (base + r.len) rs.length = some rs := by
      refine ih (base + r.len) (fun x hx => hpos x (List.mem_cons_of_mem _ hx))
        ?_
      intro j hj
      rw [ha j (by omega)]
      exact layoutArena_ge r rs base j hj hr
    show (match a base, next_record a base with
      | Cell.stored r, some nidx => (walk a nidx rs.length).map
          (fun l => r :: l)
      | _, _ => none) = some (r :: rs)
    rw [hstored, hnext]
    show Option.map (fun l => r :: l) (walk a (base + r.len) rs.length)
      = some (r :: rs)
    rw [hrest]
    rfl

/-- C3: replaying any sequence of producer calls from the initial state,
while the sum of their aligned record sizes stays below the buffer capacity
(so that no eviction and no wraparound occurs), succeeds; the oldest cursor
still sits at the start, and walking the buffer from it by repeatedly
applying `next_record` reproduces the appended records, in append order,
with unchanged content. -/
theorem appends_replay_in_order (L : Layout) (qs : List Req)
    (hszN : 0 < L.szNet) (hszE : 0 < L.szExec)
    (hfit : sumAligned L qs + L.szSec < L.bufLen) :
    ∃ stN, runReqs L qs emptyState = some stN
      ∧ stN.firstSeq = 0
      ∧ stN.firstIdx = 0
      ∧ stN.nextSeq = qs.length
      ∧ walk stN.arena stN.firstIdx qs.length
        = some (qs.map (recOf L)) := by
  have hrun : runReqs L qs emptyState
      = some (goodState (qs.map (recOf L))) := by
    have h0 : runReqs L qs (goodState [])
        = some (goodState ([] ++ qs.map (recOf L))) := by
      refine runReqs_good L qs [] hszN hszE (by intro x hx; cases hx) ?_
      show totalLen [] + sumAligned L qs + L.szSec < L.bufLen
      have ht : totalLen ([] : List StoredRec) = 0 := rfl
      omega
    rw [List.nil_append] at h0
    exact h0
  refine ⟨goodState (qs.map (recOf L)), hrun, rfl, rfl, ?_, ?_⟩
  · show (qs.map (recOf L)).length = qs.length
    exact List.length_map _ _
  · show walk (layoutArena (qs.map (recOf L)) 0) 0 qs.length
      = some (qs.map (recOf L))
    have hlen : qs.length = (qs.map (recOf L)).length :=
      (List.length_map _ _).symm
    rw [hlen]
    refine walk_layout (qs.map (recOf L)) 0 _ ?_ (fun j hj => rfl)
    intro x hx
    rcases List.mem_map.mp hx with ⟨q, hq, rfl⟩
    exact recOf_pos L q hszN hszE

/-- Witness for `appends_replay_in_order`: one netlog append followed by one
execlog append at the example layout, replayed by walking. -/
theorem appends_replay_witness :
    (0 < exL.szNet ∧ 0 < exL.szExec
      ∧ sumAligned exL
          [Req.net 7 [97] 1 1 2 none 5 none 6, Req.exec 8 [98, 99] [100]]
          + exL.szSec < exL.bufLen)
    ∧ ∃ stN, runReqs exL
          [Req.net 7 [97] 1 1 2 none 5 none 6, Req.exec 8 [98, 99] [100]]
          emptyState = some stN
        ∧ stN.firstSeq = 0
        ∧ stN.firstIdx = 0
        ∧ stN.nextSeq = [Req.net 7 [97] 1 1 2 none 5 none 6,
            Req.exec 8 [98, 99] [100]].length
        ∧ walk stN.arena stN.firstIdx
            [Req.net 7 [97] 1 1 2 none 5 none 6,
              Req.exec 8 [98, 99] [100]].length
          = some ([Req.net 7 [97] 1 1 2 none 5 none 6,
              Req.exec 8 [98, 99] [100]].map (recOf exL)) :=
  ⟨⟨by decide, by decide, by decide⟩,
    appends_replay_in_order exL
      [Req.net 7 [97] 1 1 2 none 5 none 6, Req.exec 8 [98, 99] [100]]
      (by decide) (by decide) (by decide)⟩

end ActivityKlog
